import Mathlib

/-!
Verification development for the server-side simulation core of the MSG
top-down arena shooter (`src/game/gameServer.js`).

Modelling conventions, used throughout:

* JavaScript numbers are modelled as exact rationals (`ℚ`).  Floating-point
  rounding is not modelled; comparisons between square roots of rationals are
  rewritten into equivalent comparisons between rationals where this is exact
  (`Math.sqrt q < r` with both sides nonnegative becomes `q < r*r`), and the
  few places where the code compares genuinely irrational quantities (the A*
  f-scores, the spawn fallback scores) use a fixed-precision rational
  square-root approximation, mirroring the approximate (floating-point)
  comparison performed by the code.  Every theorem proved below is invariant
  under the outcome of those approximate comparisons.
* JavaScript `Set`/`Map` objects are modelled as lists with explicit
  membership/update discipline matching the code's use.
* `socket.io` broadcasts are modelled as an explicit list of emitted events
  returned alongside the new state.
* The single pending `setTimeout` handle (`gameOverTimeout`) is modelled as a
  `Bool` flag: `true` iff a timeout handle is currently stored.
-/

namespace MSG

/-- Integer square root (`⌊√n⌋`) via the base-4 digit recursion, with explicit
structural fuel so that it reduces in the kernel.  `isqrtFuel f n` is exact
whenever `n < 4 ^ f`. -/
def isqrtFuel : Nat → Nat → Nat
  | 0, _ => 0
  | f + 1, n =>
    if n = 0 then 0
    else
      let r := isqrtFuel f (n / 4)
      if (2 * r + 1) * (2 * r + 1) ≤ n then 2 * r + 1 else 2 * r

/-- `⌊√n⌋` for the magnitudes appearing in this development (fuel 200 covers
every `n < 4 ^ 200`). -/
def isqrt (n : Nat) : Nat := isqrtFuel 200 n

/-- Scale used by the fixed-precision rational square-root approximation. -/
def SQRT_SCALE : Nat := 2 ^ 20

/-- Fixed-precision rational approximation of `√q` (an under-approximation
within `1/SQRT_SCALE` for `q ≥ 0`; `0` for negative `q`).  Used only where the
JavaScript code compares irrational quantities with floating-point arithmetic:
the proved theorems do not depend on the outcome of such comparisons. -/
def ratSqrt (q : ℚ) : ℚ :=
  (isqrt (q * (SQRT_SCALE * SQRT_SCALE : Nat)).floor.toNat : ℚ) / (SQRT_SCALE : ℚ)

/-- Exact model of `Math.sqrt d2 < r` for `d2 ≥ 0` (in the code, `d2` is
always a sum of squares): true iff `r` is positive and `d2 < r²`. -/
def sqrtLt (d2 r : ℚ) : Bool := 0 < r && d2 < r * r

/-- Exact model of `Math.ceil (Math.sqrt d2 / step)` for `d2 ≥ 0`, `step > 0`:
the least `n : ℕ` with `(n*step)² ≥ d2`.  (`Math.ceil x` is the least integer
`≥ x`, and `n ≥ √d2/step ↔ n²step² ≥ d2` for nonnegative quantities.) -/
def ceilSqrtDiv (d2 step : ℚ) : Nat :=
  let t : ℚ := d2 / (step * step)
  let m := isqrt t.ceil.toNat
  if t ≤ (m * m : Nat) then m else m + 1

/-- An axis-aligned wall rectangle `{x, y, width, height}`. -/
structure Wall where
  x : ℚ
  y : ℚ
  width : ℚ
  height : ℚ
deriving DecidableEq, Repr

/-- A point in the playfield. -/
structure Pt where
  x : ℚ
  y : ℚ
deriving DecidableEq, Repr

/-- `isPointInsideAnyWall` from gameServer.js: the point lies (inclusively)
inside some wall rectangle. -/
def isPointInsideAnyWall (x y : ℚ) (walls : List Wall) : Bool :=
  walls.any fun wall =>
    decide (wall.x ≤ x) && decide (x ≤ wall.x + wall.width) &&
    decide (wall.y ≤ y) && decide (y ≤ wall.y + wall.height)

/-- `segmentsIntersect` from gameServer.js: proper parametric intersection test
between segments `(x1,y1)-(x2,y2)` and `(x3,y3)-(x4,y4)`; parallel segments
(`den = 0`) report no intersection. -/
def segmentsIntersect (x1 y1 x2 y2 x3 y3 x4 y4 : ℚ) : Bool :=
  let den := (x1 - x2) * (y3 - y4) - (y1 - y2) * (x3 - x4)
  if den = 0 then false
  else
    let t := ((x1 - x3) * (y3 - y4) - (y1 - y3) * (x3 - x4)) / den
    let u := ((x1 - x3) * (y1 - y2) - (y1 - y3) * (x1 - x2)) / den
    decide (0 ≤ t) && decide (t ≤ 1) && decide (0 ≤ u) && decide (u ≤ 1)

/-- `lineIntersectsRect` from gameServer.js: an endpoint inside the rectangle,
or the segment crossing one of the four rectangle edges. -/
def lineIntersectsRect (x0 y0 x1 y1 : ℚ) (rect : Wall) : Bool :=
  (decide (rect.x ≤ x0) && decide (x0 ≤ rect.x + rect.width) &&
   decide (rect.y ≤ y0) && decide (y0 ≤ rect.y + rect.height)) ||
  (decide (rect.x ≤ x1) && decide (x1 ≤ rect.x + rect.width) &&
   decide (rect.y ≤ y1) && decide (y1 ≤ rect.y + rect.height)) ||
  segmentsIntersect x0 y0 x1 y1 rect.x rect.y (rect.x + rect.width) rect.y ||
  segmentsIntersect x0 y0 x1 y1 (rect.x + rect.width) rect.y (rect.x + rect.width)
    (rect.y + rect.height) ||
  segmentsIntersect x0 y0 x1 y1 (rect.x + rect.width) (rect.y + rect.height) rect.x
    (rect.y + rect.height) ||
  segmentsIntersect x0 y0 x1 y1 rect.x (rect.y + rect.height) rect.x rect.y

/-- `lineIntersectsAnyWall` from gameServer.js. -/
def lineIntersectsAnyWall (x0 y0 x1 y1 : ℚ) (walls : List Wall) : Bool :=
  walls.any fun wall => lineIntersectsRect x0 y0 x1 y1 wall

/-- The sample points of `segmentCrossesWallDiscrete`: `pointAt i steps` is the
position at parameter `t = i / steps` along the segment. -/
def segSample (x0 y0 dx dy : ℚ) (i steps : Nat) : Pt :=
  ⟨x0 + dx * ((i : ℚ) / (steps : ℚ)), y0 + dy * ((i : ℚ) / (steps : ℚ))⟩

/-- `segmentCrossesWallDiscrete` from gameServer.js: walk the segment from
`(x0,y0)` to `(x1,y1)` in `steps = max 1 ⌈len/step⌉` equal increments
(excluding the start point) and report whether any sample lands inside a
wall.  `ceilSqrtDiv` computes `⌈len/step⌉` exactly from `len² = dx²+dy²`. -/
def segmentCrossesWallDiscrete (x0 y0 x1 y1 : ℚ) (walls : List Wall)
    (step : ℚ) : Bool :=
  let dx := x1 - x0
  let dy := y1 - y0
  if dx * dx + dy * dy = 0 then false
  else
    let steps := max 1 (ceilSqrtDiv (dx * dx + dy * dy) step)
    (List.range steps).any fun j =>
      let p := segSample x0 y0 dx dy (j + 1) steps
      isPointInsideAnyWall p.x p.y walls

/-- The closest point of a wall rectangle to `(cx, cy)` (the clamping used by
`circleCollidesAnyWall` and friends). -/
def closestPtX (wall : Wall) (cx : ℚ) : ℚ := max wall.x (min cx (wall.x + wall.width))

/-- Vertical component of the clamped closest point. -/
def closestPtY (wall : Wall) (cy : ℚ) : ℚ := max wall.y (min cy (wall.y + wall.height))

/-- Squared distance from `(cx, cy)` to its clamped closest point on `wall`. -/
def wallDistSq (cx cy : ℚ) (wall : Wall) : ℚ :=
  (cx - closestPtX wall cx) * (cx - closestPtX wall cx) +
  (cy - closestPtY wall cy) * (cy - closestPtY wall cy)

/-- `circleCollidesAnyWall` from gameServer.js: the circle of the given radius
centred at `(cx, cy)` overlaps some wall (`√distSq < radius`, modelled
exactly by `sqrtLt`). -/
def circleCollidesAnyWall (cx cy radius : ℚ) (walls : List Wall) : Bool :=
  walls.any fun wall => sqrtLt (wallDistSq cx cy wall) radius

/-- `MAX_HEALTH` from gameServer.js. -/
def MAX_HEALTH : ℚ := 100

/-- `WEAPON_DAMAGE` from gameServer.js (`22.5`, `15.75`, `90`, `2.25`). -/
def WEAPON_DAMAGE : String → Option ℚ
  | "pistol" => some (45 / 2)
  | "autoRifle" => some (63 / 4)
  | "sniper" => some 90
  | "miniGun" => some (9 / 4)
  | _ => none

/-- `DEFAULT_SKIN_BY_WEAPON` from `src/lib/skins.js`: for each weapon the key
of its first `isDefault` skin in the `WEAPON_SKINS` catalog
(`src/public/skins.js`). -/
def DEFAULT_SKIN_BY_WEAPON : String → Option String
  | "pistol" => some "pistol_default"
  | "autoRifle" => some "autoRifle_default"
  | "miniGun" => some "miniGun_default"
  | "sniper" => some "sniper_default"
  | _ => none

/-- The numeral part of the bot-name pattern `^BOT ([1-9][0-9]?|100)$`:
one digit `1-9`, a digit `1-9` followed by a digit, or exactly `100`. -/
def botNumberChars : List Char → Bool
  | [c] => decide ('1' ≤ c) && decide (c ≤ '9')
  | [c, d] => decide ('1' ≤ c) && decide (c ≤ '9') && d.isDigit
  | ['1', '0', '0'] => true
  | _ => false

/-- `isBotAlliedName` from gameServer.js: the trimmed name matches
`BOT 1` through `BOT 100` with no leading zeroes.  (The `typeof` guard is
subsumed by typing names as strings.) -/
def isBotAlliedName (name : String) : Bool :=
  let trimmed := name.trim
  trimmed.startsWith "BOT " && botNumberChars (trimmed.drop 4).toList

/-- A player or bot entity of the active set (`activePlayers` elements).
`lastDamageDealtAt`/`lastDamageTakenAt` model the only `botState` fields that
the `playerHit` handler writes; coordinates are typed as rationals (see the
`playerUpdate` model below for the untyped reality of client updates). -/
structure Player where
  id : String
  name : String
  displayName : String
  accountUsername : Option String
  weapon : String
  weaponSkinKey : Option String
  x : ℚ
  y : ℚ
  angle : ℚ
  alive : Bool
  health : ℚ
  isBot : Bool
  lastDamageDealtAt : Option ℚ
  lastDamageTakenAt : Option ℚ
deriving DecidableEq, Repr

/-- `hasDefaultSkin` from gameServer.js: if the weapon has no default skin the
player must have no equipped skin (`equipped == null`), else the equipped skin
must equal the default. -/
def hasDefaultSkin (p : Player) : Bool :=
  match DEFAULT_SKIN_BY_WEAPON p.weapon with
  | none => p.weaponSkinKey = none
  | some d => p.weaponSkinKey = some d

/-- `isBotAllyPlayer` from gameServer.js: an explicit bot, or a default-skin
player whose display name matches the bot-name pattern.  (The JS fallback from
`displayName` to `name` applies only to untyped objects; entities always carry
a string `displayName` here.) -/
def isBotAllyPlayer (p : Player) : Bool :=
  p.isBot || (hasDefaultSkin p && isBotAlliedName p.displayName)

/-- A server-tracked in-flight bullet (the records pushed by
`trackActiveBullet`). -/
structure TrackedBullet where
  id : ℚ
  playerId : Option String
  shooterIsBot : Bool
  x : ℚ
  y : ℚ
  angle : ℚ
  radius : ℚ
  speedPerSec : ℚ
  vx : ℚ
  vy : ℚ
  createdAt : ℚ
  lastUpdatedAt : ℚ
deriving DecidableEq, Repr

/-- A persistent account record (`usersByUsername` entry); `coins` is `some`
exactly when `currencies.Coins` exists and is numeric. -/
structure Account where
  username : String
  coins : Option ℚ
deriving DecidableEq, Repr

/-- The match-scoped server state.  `gameOverPending` is `true` iff the
`gameOverTimeout` handle is non-null.  (`waitingPlayers` and `nextBotId` are
omitted: no claim mentions them.) -/
structure GameState where
  players : List Player
  walls : List Wall
  processedBulletHits : List ℚ
  activeBullets : List TrackedBullet
  nextBulletId : Nat
  gameInProgress : Bool
  gameOverPending : Bool
  accounts : List Account
deriving DecidableEq, Repr

/-- Payload of a `shoot` message; `none` fields model absent or non-numeric
values (`typeof v !== "number"`). -/
structure ShootPayload where
  x : Option ℚ
  y : Option ℚ
  angle : Option ℚ
  speed : Option ℚ
  radius : Option ℚ
deriving DecidableEq, Repr

/-- Outbound broadcasts relevant to the embedded handlers. -/
inductive Emit where
  | playerKilled (id : String)
  | coinsUpdated (toPlayerId : String) (coins : ℚ)
  | gameState
  | gameOver (winnerName : String)
  | resetGame
  | newBullet (payload : ShootPayload) (bulletId : Nat) (playerId : String)
deriving DecidableEq, Repr

/-- Payload of a `playerHit` message: either the legacy plain-string form
(target id only) or the object form with optional fields (`bulletId` is `some`
exactly when the field is present and numeric). -/
inductive HitMsg where
  | legacy (targetId : String)
  | obj (targetId : Option String) (shooterId : Option String) (bulletId : Option ℚ)
deriving DecidableEq, Repr

/-- Apply `f` to the first list entry with the given id (JS mutates the object
returned by `find`, which is the first match). -/
def updateFirst (ps : List Player) (pid : String) (f : Player → Player) :
    List Player :=
  match ps with
  | [] => []
  | p :: rest => if p.id = pid then f p :: rest else p :: updateFirst rest pid f

/-- Remove the first bullet with the given id (the `splice` in
`removeActiveBullet`). -/
def eraseFirstBullet (bid : ℚ) : List TrackedBullet → List TrackedBullet
  | [] => []
  | b :: rest => if b.id = bid then rest else b :: eraseFirstBullet bid rest

/-- `removeActiveBullet` from gameServer.js (no-op on a null id). -/
def removeActiveBullet (bulletId : Option ℚ) (bullets : List TrackedBullet) :
    List TrackedBullet :=
  match bulletId with
  | none => bullets
  | some bid => eraseFirstBullet bid bullets

/-- Overwrite the coin balance of the account with the given username. -/
def updateAccount (accts : List Account) (username : String) (coins : Option ℚ) :
    List Account :=
  match accts with
  | [] => []
  | a :: rest =>
    if a.username = username then { a with coins := coins } :: rest
    else a :: updateAccount rest username coins

/-- `scheduleGameOver` from gameServer.js: no-op while a game-over timeout is
pending, else broadcast `gameOver` and store the reset timeout handle. -/
def scheduleGameOver (s : GameState) (winnerName : String) :
    GameState × List Emit :=
  if s.gameOverPending then (s, [])
  else ({ s with gameOverPending := true }, [Emit.gameOver winnerName])

/-- `maybeTriggerGameOver` from gameServer.js. -/
def maybeTriggerGameOver (s : GameState) : GameState × List Emit :=
  if !s.gameInProgress || s.gameOverPending then (s, [])
  else
    match s.players.filter (fun p => p.alive) with
    | [] => (s, [])
    | w :: rest =>
      if ((w :: rest).filter fun p => !p.isBot).length = 0 then
        scheduleGameOver s "Bots"
      else if rest.length = 0 then scheduleGameOver s w.name
      else (s, [])

/-- `resetGame` from gameServer.js: cancel the pending timeout, clear all
match-scoped state and broadcast `resetGame`. -/
def resetGame (s : GameState) : GameState × List Emit :=
  ({ s with gameOverPending := false
            players := []
            walls := []
            gameInProgress := false
            activeBullets := []
            nextBulletId := 1
            processedBulletHits := [] },
   [Emit.resetGame])

/-- Damage applied by a hit: the shooter's weapon damage, defaulting to the
pistol's `22.5` when the shooter or its weapon is unknown. -/
def hitDamage (shooter? : Option Player) : ℚ :=
  match shooter? with
  | some sh => (WEAPON_DAMAGE sh.weapon).getD (45 / 2)
  | none => 45 / 2

/-- The coin-award rule of the elimination branch of `playerHit`: `some
(shooterId, username, newBalance)` when the shooter has a truthy account
username, the kill is not a same-account kill, it is not an actual bot
eliminated by a bot-allied-named shooter, and the account record exists;
`none` (zero coins) otherwise. -/
def coinAward (accounts : List Account) (target : Player)
    (shooter? : Option Player) : Option (String × String × ℚ) :=
  match shooter? with
  | none => none
  | some sh =>
    match sh.accountUsername with
    | none => none
    | some su =>
      if su = "" then none
      else
        let sameAccountKill : Bool := match target.accountUsername with
          | some tu => su = tu
          | none => false
        let shooterNamedAsBot :=
          isBotAlliedName (if sh.displayName = "" then sh.name else sh.displayName)
        let killedBot := target.isBot
        if !sameAccountKill && !(shooterNamedAsBot && killedBot) then
          match accounts.find? (fun a => a.username = su) with
          | some acct => some (sh.id, su, acct.coins.getD 0 + 5)
          | none => none
        else none

/-- The damage/elimination tail of the `playerHit` handler (everything after
the duplicate-bullet bookkeeping): `botState` damage timestamps, weapon damage
with clamp at 0, elimination broadcast, the coin-reward rules, the `gameState`
broadcast, and the win check. -/
def playerHitApply (s : GameState) (now : ℚ) (target : Player)
    (shooter? : Option Player) : GameState × List Emit :=
  let ps1 := match shooter? with
    | some sh =>
      if sh.isBot then
        updateFirst s.players sh.id
          fun p => { p with lastDamageDealtAt := some now }
      else s.players
    | none => s.players
  let ps2 :=
    if target.isBot then
      updateFirst ps1 target.id
        fun p => { p with lastDamageTakenAt := some now }
    else ps1
  let damage : ℚ := hitDamage shooter?
  let newHealth : ℚ := max 0 (target.health - damage)
  let died : Bool := decide (newHealth ≤ 0)
  let hurt : Player → Player := fun p =>
    if died then { p with health := newHealth, alive := false }
    else { p with health := newHealth }
  let ps3 := updateFirst ps2 target.id hurt
  let coin : List Account × List Emit :=
    if died then
      match coinAward s.accounts target shooter? with
      | some (shooterId, su, newCoins) =>
        (updateAccount s.accounts su (some newCoins),
         [Emit.coinsUpdated shooterId newCoins])
      | none => (s.accounts, [])
    else (s.accounts, [])
  let killEmits := if died then [Emit.playerKilled target.id] else []
  let s4 := { s with players := ps3, accounts := coin.1 }
  let afterGo := maybeTriggerGameOver s4
  (afterGo.1, killEmits ++ coin.2 ++ [Emit.gameState] ++ afterGo.2)

/-- Target id carried by a `playerHit` payload (`payload` when it is a plain
string, else `payload.targetId`). -/
def HitMsg.targetId : HitMsg → Option String
  | .legacy t => some t
  | .obj t _ _ => t

/-- Shooter id carried by a `playerHit` payload after the handler's truthiness
normalisation (`payload.shooterId ? payload.shooterId : null`; the empty
string is falsy). -/
def HitMsg.shooterId : HitMsg → Option String
  | .legacy _ => none
  | .obj _ sh _ =>
    match sh with
    | some sid => if sid = "" then none else some sid
    | none => none

/-- Bullet id carried by a `playerHit` payload (`some` exactly when the field
is present and numeric). -/
def HitMsg.bulletId : HitMsg → Option ℚ
  | .legacy _ => none
  | .obj _ _ b => b

/-- The shooter entity the `playerHit` handler resolves for a payload. -/
def effectiveShooter (s : GameState) (payload : HitMsg) : Option Player :=
  match payload.shooterId with
  | none => none
  | some sid => s.players.find? (fun p => p.id = sid)

/-- The bot-shooter versus bot-allied-target drop condition of `playerHit`. -/
def botAllyDrop (shooter? : Option Player) (target : Player) : Bool :=
  match shooter? with
  | some sh => sh.isBot && isBotAllyPlayer target
  | none => false

/-- The `playerHit` handler from gameServer.js: payload normalisation, the
target-missing/dead drop, the bot-shooter versus bot-allied-target drop, the
duplicate-`bulletId` drop (which still removes the active bullet), the
first-processing bookkeeping, then `playerHitApply`. -/
def playerHit (s : GameState) (now : ℚ) (payload : HitMsg) :
    GameState × List Emit :=
  let targetId? : Option String := payload.targetId
  let bulletId? : Option ℚ := payload.bulletId
  match targetId? with
  | none => (s, [])
  | some tid =>
    match s.players.find? (fun p => p.id = tid) with
    | none => (s, [])
    | some target =>
      if !target.alive then (s, [])
      else
        let shooter? : Option Player := effectiveShooter s payload
        if botAllyDrop shooter? target then (s, [])
        else
          match bulletId? with
          | some bid =>
            if bid ∈ s.processedBulletHits then
              ({ s with activeBullets := removeActiveBullet (some bid) s.activeBullets },
               [])
            else
              playerHitApply
                { s with processedBulletHits := bid :: s.processedBulletHits
                         activeBullets := removeActiveBullet (some bid) s.activeBullets }
                now target shooter?
          | none => playerHitApply s now target shooter?

/-- The observable combat fields of the player list: id, health and alive
flag of every player, in order. -/
def idHealthAlive (ps : List Player) : List (String × ℚ × Bool) :=
  ps.map fun p => (p.id, p.health, p.alive)

theorem scheduleGameOver_processed (s : GameState) (w : String) :
    (scheduleGameOver s w).1.processedBulletHits = s.processedBulletHits := by
  unfold scheduleGameOver; split <;> rfl

theorem maybeTriggerGameOver_processed (s : GameState) :
    (maybeTriggerGameOver s).1.processedBulletHits = s.processedBulletHits := by
  unfold maybeTriggerGameOver
  split
  · rfl
  · split
    · rfl
    · split
      · exact scheduleGameOver_processed _ _
      · split
        · exact scheduleGameOver_processed _ _
        · rfl

theorem playerHitApply_processed (s : GameState) (now : ℚ) (target : Player)
    (shooter? : Option Player) :
    (playerHitApply s now target shooter?).1.processedBulletHits =
      s.processedBulletHits := by
  unfold playerHitApply
  rw [maybeTriggerGameOver_processed]

theorem scheduleGameOver_activeBullets (s : GameState) (w : String) :
    (scheduleGameOver s w).1.activeBullets = s.activeBullets := by
  unfold scheduleGameOver; split <;> rfl

theorem maybeTriggerGameOver_activeBullets (s : GameState) :
    (maybeTriggerGameOver s).1.activeBullets = s.activeBullets := by
  unfold maybeTriggerGameOver
  split
  · rfl
  · split
    · rfl
    · split
      · exact scheduleGameOver_activeBullets _ _
      · split
        · exact scheduleGameOver_activeBullets _ _
        · rfl

theorem playerHitApply_activeBullets (s : GameState) (now : ℚ) (target : Player)
    (shooter? : Option Player) :
    (playerHitApply s now target shooter?).1.activeBullets =
      s.activeBullets := by
  unfold playerHitApply
  rw [maybeTriggerGameOver_activeBullets]

theorem scheduleGameOver_players (s : GameState) (w : String) :
    (scheduleGameOver s w).1.players = s.players := by
  unfold scheduleGameOver; split <;> rfl

theorem maybeTriggerGameOver_players (s : GameState) :
    (maybeTriggerGameOver s).1.players = s.players := by
  unfold maybeTriggerGameOver
  split
  · rfl
  · split
    · rfl
    · split
      · exact scheduleGameOver_players _ _
      · split
        · exact scheduleGameOver_players _ _
        · rfl

theorem scheduleGameOver_accounts (s : GameState) (w : String) :
    (scheduleGameOver s w).1.accounts = s.accounts := by
  unfold scheduleGameOver; split <;> rfl

theorem maybeTriggerGameOver_accounts (s : GameState) :
    (maybeTriggerGameOver s).1.accounts = s.accounts := by
  unfold maybeTriggerGameOver
  split
  · rfl
  · split
    · rfl
    · split
      · exact scheduleGameOver_accounts _ _
      · split
        · exact scheduleGameOver_accounts _ _
        · rfl

/-- **C1.** For every `playerHit` event carrying a numeric `bulletId`, damage
is applied at most once per `bulletId`: a first processing that reaches the
damage stage (live target, not dropped as bot-on-ally, id not yet processed)
records the id in `processedBulletHits`, and processing any `playerHit` whose
`bulletId` is already recorded leaves every player's id, health and alive flag
exactly unchanged. -/
theorem playerHit_damage_at_most_once_per_bulletId (bid : ℚ) :
    (∀ (s : GameState) (now : ℚ) (payload : HitMsg) (tid : String)
        (target : Player),
        payload.bulletId = some bid →
        payload.targetId = some tid →
        s.players.find? (fun p => p.id = tid) = some target →
        target.alive = true →
        botAllyDrop (effectiveShooter s payload) target = false →
        bid ∉ s.processedBulletHits →
        bid ∈ (playerHit s now payload).1.processedBulletHits) ∧
    (∀ (s : GameState) (now : ℚ) (payload : HitMsg),
        payload.bulletId = some bid →
        bid ∈ s.processedBulletHits →
        idHealthAlive (playerHit s now payload).1.players =
          idHealthAlive s.players) := by
  constructor
  · intro s now payload tid target hb ht hfind halive hdrop hmem
    simp only [playerHit, ht, hfind, halive, hdrop, hb, Bool.not_true,
      Bool.false_eq_true, if_false]
    rw [if_neg hmem, playerHitApply_processed]
    exact List.mem_cons_self _ _
  · intro s now payload hb hmem
    cases ht : payload.targetId with
    | none => simp only [playerHit, ht]
    | some tid =>
      cases hfind : s.players.find? (fun p => p.id = tid) with
      | none => simp only [playerHit, ht, hfind]
      | some target =>
        by_cases halive : target.alive = true
        · by_cases hdrop : botAllyDrop (effectiveShooter s payload) target = true
          · simp only [playerHit, ht, hfind, halive, hdrop, Bool.not_true,
              Bool.false_eq_true, if_false, if_true]
          · simp only [playerHit, ht, hfind, halive, hdrop, hb, Bool.not_true,
              Bool.false_eq_true, if_false]
            rw [if_pos hmem]
        · simp only [playerHit, ht, hfind, Bool.not_eq_true] at halive ⊢
          simp only [halive, Bool.not_false, if_true]

/-- A sample human player used by concrete witnesses. -/
def wPlayerA : Player where
  id := "a"
  name := "Alice"
  displayName := "Alice"
  accountUsername := some "alice"
  weapon := "pistol"
  weaponSkinKey := some "pistol_default"
  x := 100
  y := 100
  angle := 0
  alive := true
  health := 100
  isBot := false
  lastDamageDealtAt := none
  lastDamageTakenAt := none

/-- A second sample human player used by concrete witnesses. -/
def wPlayerB : Player where
  id := "b"
  name := "Bob"
  displayName := "Bob"
  accountUsername := some "bob"
  weapon := "pistol"
  weaponSkinKey := some "pistol_default"
  x := 500
  y := 100
  angle := 0
  alive := true
  health := 30
  isBot := false
  lastDamageDealtAt := none
  lastDamageTakenAt := none

/-- A sample game state with two live human players. -/
def wState : GameState where
  players := [wPlayerA, wPlayerB]
  walls := []
  processedBulletHits := []
  activeBullets := []
  nextBulletId := 5
  gameInProgress := true
  gameOverPending := false
  accounts := [⟨"alice", some 10⟩, ⟨"bob", none⟩]

theorem playerHit_damage_at_most_once_per_bulletId_witness :
    (3 : ℚ) ∈
      (playerHit wState 7 (.obj (some "b") (some "a") (some 3))).1.processedBulletHits ∧
    idHealthAlive
        (playerHit (playerHit wState 7 (.obj (some "b") (some "a") (some 3))).1 8
          (.obj (some "b") (some "a") (some 3))).1.players =
      idHealthAlive (playerHit wState 7 (.obj (some "b") (some "a") (some 3))).1.players := by
  constructor
  · exact (playerHit_damage_at_most_once_per_bulletId 3).1 wState 7
      (.obj (some "b") (some "a") (some 3)) "b" wPlayerB rfl rfl (by decide!)
      (by decide!) (by decide!) (by decide!)
  · exact (playerHit_damage_at_most_once_per_bulletId 3).2
      (playerHit wState 7 (.obj (some "b") (some "a") (some 3))).1 8
      (.obj (some "b") (some "a") (some 3)) rfl (by decide!)


/-- **C7.** At most one game-over reset timer is ever pending: while one is
pending, `scheduleGameOver` and `maybeTriggerGameOver` are complete no-ops
(no second `gameOver` broadcast, no second timer); `resetGame` cancels the
pending timer and clears the handle; and from a cleared state a match that
meets a win condition triggers a (single) `gameOver` broadcast again. -/
theorem gameOver_schedule_idempotent_and_cancelable :
    (∀ (s : GameState) (w : String), s.gameOverPending = true →
        scheduleGameOver s w = (s, [])) ∧
    (∀ s : GameState, s.gameOverPending = true →
        maybeTriggerGameOver s = (s, [])) ∧
    (∀ s : GameState, (resetGame s).1.gameOverPending = false) ∧
    (∀ s : GameState, s.gameOverPending = false → s.gameInProgress = true →
        ∀ (w : Player) (rest : List Player),
        s.players.filter (fun p => p.alive) = w :: rest →
        ((((w :: rest).filter fun p => !p.isBot).length = 0) ∨ rest = []) →
        (maybeTriggerGameOver s).1.gameOverPending = true ∧
          ∃ n, (maybeTriggerGameOver s).2 = [Emit.gameOver n]) := by
  refine ⟨?_, ?_, ?_, ?_⟩
  · intro s w h
    simp [scheduleGameOver, h]
  · intro s h
    simp [maybeTriggerGameOver, h]
  · intro s
    rfl
  · intro s hp hg w rest hfilter hwin
    unfold maybeTriggerGameOver
    rw [hfilter, hg, hp]
    simp only [Bool.not_true, Bool.or_false, Bool.false_eq_true, if_false]
    by_cases hh : (((w :: rest).filter fun p => !p.isBot).length = 0)
    · rw [if_pos hh]
      simp [scheduleGameOver, hp]
    · rw [if_neg hh]
      rcases hwin with hwin | hwin
      · exact absurd hwin hh
      · subst hwin
        simp [scheduleGameOver, hp]

/-- A pending-game-over sample state. -/
def wStatePending : GameState := { wState with gameOverPending := true }

/-- A sample state where only one player is alive. -/
def wStateOneAlive : GameState :=
  { wState with players := [wPlayerA, { wPlayerB with alive := false, health := 0 }] }

theorem gameOver_schedule_idempotent_and_cancelable_witness :
    scheduleGameOver wStatePending "Alice" = (wStatePending, []) ∧
    maybeTriggerGameOver wStatePending = (wStatePending, []) ∧
    (resetGame wStatePending).1.gameOverPending = false ∧
    ((maybeTriggerGameOver wStateOneAlive).1.gameOverPending = true ∧
      ∃ n, (maybeTriggerGameOver wStateOneAlive).2 = [Emit.gameOver n]) := by
  refine ⟨?_, ?_, ?_, ?_⟩
  · exact gameOver_schedule_idempotent_and_cancelable.1 wStatePending "Alice" rfl
  · exact gameOver_schedule_idempotent_and_cancelable.2.1 wStatePending rfl
  · exact gameOver_schedule_idempotent_and_cancelable.2.2.1 wStatePending
  · exact gameOver_schedule_idempotent_and_cancelable.2.2.2 wStateOneAlive rfl rfl
      wPlayerA [] (by decide!) (Or.inr rfl)

/-- **C10.** Whenever a `playerHit` event with a numeric `bulletId` for a live
target reaches the duplicate check (live target, not dropped as
bot-on-ally), the matching bullet is removed from the active in-flight bullet
list on both branches; on the duplicate branch the handler performs exactly
that removal and nothing else (no player field changes, no broadcast). -/
theorem playerHit_duplicate_still_removes_bullet (s : GameState) (now : ℚ)
    (payload : HitMsg) (bid : ℚ) (tid : String) (target : Player)
    (hb : payload.bulletId = some bid)
    (ht : payload.targetId = some tid)
    (hfind : s.players.find? (fun p => p.id = tid) = some target)
    (halive : target.alive = true)
    (hdrop : botAllyDrop (effectiveShooter s payload) target = false) :
    (playerHit s now payload).1.activeBullets =
      removeActiveBullet (some bid) s.activeBullets ∧
    (bid ∈ s.processedBulletHits →
      playerHit s now payload =
        ({ s with activeBullets := removeActiveBullet (some bid) s.activeBullets },
         [])) := by
  constructor
  · simp only [playerHit, ht, hfind, halive, hdrop, hb, Bool.not_true,
      Bool.false_eq_true, if_false]
    by_cases hmem : bid ∈ s.processedBulletHits
    · rw [if_pos hmem]
    · rw [if_neg hmem, playerHitApply_activeBullets]
  · intro hmem
    simp only [playerHit, ht, hfind, halive, hdrop, hb, Bool.not_true,
      Bool.false_eq_true, if_false]
    rw [if_pos hmem]

/-- A sample tracked bullet with id 3. -/
def wBullet3 : TrackedBullet where
  id := 3
  playerId := some "a"
  shooterIsBot := false
  x := 120
  y := 100
  angle := 0
  radius := 5
  speedPerSec := 600
  vx := 600
  vy := 0
  createdAt := 0
  lastUpdatedAt := 0

/-- A sample state where bullet 3 is tracked and already processed. -/
def wStateDup : GameState :=
  { wState with activeBullets := [wBullet3], processedBulletHits := [3] }

theorem playerHit_duplicate_still_removes_bullet_witness :
    playerHit wStateDup 9 (.obj (some "b") (some "a") (some 3)) =
      ({ wStateDup with
          activeBullets := removeActiveBullet (some 3) wStateDup.activeBullets },
       []) :=
  (playerHit_duplicate_still_removes_bullet wStateDup 9
      (.obj (some "b") (some "a") (some 3)) 3 "b" wPlayerB rfl rfl (by decide!)
      (by decide!) (by decide!)).2 (by decide!)



/-- Modelled from the claim's wording (refinement reference for C2): the
`playerHit` resolution rules applied in the order the specification states
them — target-absent/dead drop first, then the duplicate-`bulletId` stage
(with the code's bookkeeping), and only then the bot-shooter versus
bot-allied-target drop before damage. -/
def claimOrderedPlayerHit (s : GameState) (now : ℚ) (payload : HitMsg) :
    GameState × List Emit :=
  match payload.targetId with
  | none => (s, [])
  | some tid =>
    match s.players.find? (fun p => p.id = tid) with
    | none => (s, [])
    | some target =>
      if !target.alive then (s, [])
      else
        let shooter? := effectiveShooter s payload
        match payload.bulletId with
        | some bid =>
          if bid ∈ s.processedBulletHits then
            ({ s with activeBullets := removeActiveBullet (some bid) s.activeBullets },
             [])
          else
            let s1 :=
              { s with processedBulletHits := bid :: s.processedBulletHits
                       activeBullets := removeActiveBullet (some bid) s.activeBullets }
            if botAllyDrop shooter? target then (s1, [])
            else playerHitApply s1 now target shooter?
        | none =>
          if botAllyDrop shooter? target then (s, [])
          else playerHitApply s now target shooter?

/-- A sample bot entity. -/
def wBot1 : Player where
  id := "bot-1"
  name := "BOT 1"
  displayName := "BOT 1"
  accountUsername := none
  weapon := "miniGun"
  weaponSkinKey := some "miniGun_default"
  x := 200
  y := 200
  angle := 0
  alive := true
  health := 100
  isBot := true
  lastDamageDealtAt := none
  lastDamageTakenAt := none

/-- A second sample bot entity. -/
def wBot2 : Player :=
  { wBot1 with id := "bot-2", name := "BOT 2", displayName := "BOT 2", x := 400 }

/-- A bullet already marked processed, fired by a bot at a bot: the state that
separates the code's rule order from the claimed one. -/
def cStateOrder : GameState where
  players := [wBot1, wBot2]
  walls := []
  processedBulletHits := [7]
  activeBullets := [{ wBullet3 with id := 7, playerId := some "bot-1", shooterIsBot := true }]
  nextBulletId := 8
  gameInProgress := true
  gameOverPending := false
  accounts := []

/-- The `playerHit` payload for `cStateOrder`: bot shoots bot with the
already-processed bullet 7. -/
def cPayloadOrder : HitMsg := .obj (some "bot-2") (some "bot-1") (some 7)

/-- Counterexample to C2 as stated: on a bot-shooter / bot-target event whose
`bulletId` was already processed, the code (bot-ally drop first) leaves the
active bullet list untouched, while the claimed order (duplicate drop first)
would remove the bullet: the two handlers differ at this concrete input. -/
theorem playerHit_rule_order_counterexample :
    playerHit cStateOrder 0 cPayloadOrder ≠
      claimOrderedPlayerHit cStateOrder 0 cPayloadOrder := by decide!

/-- **C2 (amended).** The `playerHit` handler applies its resolution rules in
this order: first drop the event if the target is absent or not alive; then,
if the shooter is a bot and the target is bot-or-bot-allied, drop it before
any bullet bookkeeping (nothing is recorded or removed); then drop duplicate
`bulletId`s (still removing the active bullet); only otherwise proceed to the
damage stage (`playerHitApply`, which applies the shooter's weapon damage
defaulting to the pistol's and clamps health at 0).  In particular a bot
shooter never changes the health or alive flag of a bot-or-bot-allied target.
-/
theorem playerHit_rule_order (s : GameState) (now : ℚ) (payload : HitMsg) :
    (payload.targetId = none → playerHit s now payload = (s, [])) ∧
    (∀ tid, payload.targetId = some tid →
      s.players.find? (fun p => p.id = tid) = none →
      playerHit s now payload = (s, [])) ∧
    (∀ tid target, payload.targetId = some tid →
      s.players.find? (fun p => p.id = tid) = some target →
      target.alive = false → playerHit s now payload = (s, [])) ∧
    (∀ tid target, payload.targetId = some tid →
      s.players.find? (fun p => p.id = tid) = some target →
      target.alive = true →
      botAllyDrop (effectiveShooter s payload) target = true →
      playerHit s now payload = (s, [])) ∧
    (∀ tid target bid, payload.targetId = some tid →
      s.players.find? (fun p => p.id = tid) = some target →
      target.alive = true →
      botAllyDrop (effectiveShooter s payload) target = false →
      payload.bulletId = some bid → bid ∈ s.processedBulletHits →
      playerHit s now payload =
        ({ s with activeBullets := removeActiveBullet (some bid) s.activeBullets },
         [])) ∧
    (∀ tid target bid, payload.targetId = some tid →
      s.players.find? (fun p => p.id = tid) = some target →
      target.alive = true →
      botAllyDrop (effectiveShooter s payload) target = false →
      payload.bulletId = some bid → bid ∉ s.processedBulletHits →
      playerHit s now payload =
        playerHitApply
          { s with processedBulletHits := bid :: s.processedBulletHits
                   activeBullets := removeActiveBullet (some bid) s.activeBullets }
          now target (effectiveShooter s payload)) ∧
    (∀ tid target, payload.targetId = some tid →
      s.players.find? (fun p => p.id = tid) = some target →
      target.alive = true →
      botAllyDrop (effectiveShooter s payload) target = false →
      payload.bulletId = none →
      playerHit s now payload =
        playerHitApply s now target (effectiveShooter s payload)) ∧
    (∀ tid target, payload.targetId = some tid →
      s.players.find? (fun p => p.id = tid) = some target →
      botAllyDrop (effectiveShooter s payload) target = true →
      idHealthAlive (playerHit s now payload).1.players =
        idHealthAlive s.players) := by
  refine ⟨?_, ?_, ?_, ?_, ?_, ?_, ?_, ?_⟩
  · intro h
    simp only [playerHit, h]
  · intro tid ht hfind
    simp only [playerHit, ht, hfind]
  · intro tid target ht hfind hdead
    simp only [playerHit, ht, hfind, hdead, Bool.not_false, if_true]
  · intro tid target ht hfind halive hdrop
    simp only [playerHit, ht, hfind, halive, hdrop, Bool.not_true,
      Bool.false_eq_true, if_false, if_true]
  · intro tid target bid ht hfind halive hdrop hb hmem
    simp only [playerHit, ht, hfind, halive, hdrop, hb, Bool.not_true,
      Bool.false_eq_true, if_false]
    rw [if_pos hmem]
  · intro tid target bid ht hfind halive hdrop hb hmem
    simp only [playerHit, ht, hfind, halive, hdrop, hb, Bool.not_true,
      Bool.false_eq_true, if_false]
    rw [if_neg hmem]
  · intro tid target ht hfind halive hdrop hb
    simp only [playerHit, ht, hfind, halive, hdrop, hb, Bool.not_true,
      Bool.false_eq_true, if_false]
  · intro tid target ht hfind hdrop
    by_cases halive : target.alive = true
    · simp only [playerHit, ht, hfind, halive, hdrop, Bool.not_true,
        Bool.false_eq_true, if_false, if_true]
    · simp only [Bool.not_eq_true] at halive
      simp only [playerHit, ht, hfind, halive, Bool.not_false, if_true]

theorem playerHit_rule_order_witness :
    playerHit cStateOrder 0 cPayloadOrder = (cStateOrder, []) ∧
    playerHit wState 7 (.obj (some "b") (some "a") (some 3)) =
      playerHitApply
        { wState with processedBulletHits := 3 :: wState.processedBulletHits
                      activeBullets :=
                        removeActiveBullet (some 3) wState.activeBullets }
        7 wPlayerB (effectiveShooter wState (.obj (some "b") (some "a") (some 3))) := by
  constructor
  · exact (playerHit_rule_order cStateOrder 0 cPayloadOrder).2.2.2.1 "bot-2" wBot2
      rfl (by decide!) (by decide!) (by decide!)
  · exact (playerHit_rule_order wState 7 (.obj (some "b") (some "a") (some 3))).2.2.2.2.2.1
      "b" wPlayerB 3 rfl (by decide!) (by decide!) (by decide!) rfl (by decide!)



/-- The coin-credit condition, stated as the specification words it: the
shooter resolves to an entity with a (truthy) account username whose account
record exists, the victim's account is not the shooter's account, and the
kill is not an actual bot eliminated by a bot-allied-named shooter. -/
def CreditCond (accounts : List Account) (target : Player)
    (shooter? : Option Player) : Prop :=
  ∃ sh u acct, shooter? = some sh ∧ sh.accountUsername = some u ∧ u ≠ "" ∧
    accounts.find? (fun a => a.username = u) = some acct ∧
    target.accountUsername ≠ some u ∧
    ¬(isBotAlliedName
        (if sh.displayName = "" then sh.name else sh.displayName) = true ∧
      target.isBot = true)

theorem coinAward_some_iff (accounts : List Account) (target : Player)
    (shooter? : Option Player) :
    (∃ v, coinAward accounts target shooter? = some v) ↔
      CreditCond accounts target shooter? := by
  unfold coinAward CreditCond
  cases shooter? with
  | none => simp
  | some sh =>
    cases hsu : sh.accountUsername with
    | none => simp [hsu]
    | some su =>
      by_cases hsue : su = ""
      · subst hsue
        simp [hsu]
      · simp only [hsu, if_neg hsue, Option.some.injEq]
        have hsame : ((match target.accountUsername with
            | some tu => decide (su = tu)
            | none => false) = false) ↔ target.accountUsername ≠ some su := by
          cases h : target.accountUsername <;>
            simp [h, eq_comm]
        by_cases hs : target.accountUsername = some su
        · have : (match target.accountUsername with
              | some tu => decide (su = tu)
              | none => false) = true := by
            rw [hs]; simp
          simp only [this, Bool.not_true, Bool.false_and, if_false]
          constructor
          · rintro ⟨v, hv⟩; cases hv
          · rintro ⟨sh', u, acct, hsh, hu, -, -, hne, -⟩
            cases hsh
            rw [hsu] at hu; cases hu
            exact absurd hs hne
        · have hf : (match target.accountUsername with
              | some tu => decide (su = tu)
              | none => false) = false := hsame.mpr hs
          simp only [hf, Bool.not_false, Bool.true_and]
          by_cases hnb : (isBotAlliedName
              (if sh.displayName = "" then sh.name else sh.displayName) &&
                target.isBot) = true
          · simp only [hnb, Bool.not_true, if_false]
            rw [Bool.and_eq_true] at hnb
            constructor
            · rintro ⟨v, hv⟩; cases hv
            · rintro ⟨sh', u, acct, hsh, hu, -, -, -, hcon⟩
              cases hsh
              exact absurd hnb hcon
          · simp only [Bool.not_eq_true] at hnb
            simp only [hnb, Bool.not_false, if_true]
            rw [Bool.and_eq_false_iff] at hnb
            cases hfind : accounts.find? (fun a => a.username = su) with
            | none =>
              constructor
              · rintro ⟨v, hv⟩; cases hv
              · rintro ⟨sh', u, acct, hsh, hu, -, hacct, -, -⟩
                cases hsh
                rw [hsu] at hu; cases hu
                rw [hfind] at hacct; cases hacct
            | some acct =>
              constructor
              · rintro ⟨v, -⟩
                refine ⟨sh, su, acct, rfl, hsu, hsue, hfind, hs, ?_⟩
                rintro ⟨h1, h2⟩
                rcases hnb with h | h
                · rw [h1] at h; cases h
                · rw [h2] at h; cases h
              · rintro -
                exact ⟨_, rfl⟩

theorem maybeTriggerGameOver_emits_gameOver (s : GameState) :
    ∀ e ∈ (maybeTriggerGameOver s).2, ∃ n, e = Emit.gameOver n := by
  intro e he
  unfold maybeTriggerGameOver at he
  split at he
  · exact absurd he (List.not_mem_nil _)
  · split at he
    · exact absurd he (List.not_mem_nil _)
    · unfold scheduleGameOver at he
      split at he
      · split at he
        · exact absurd he (List.not_mem_nil _)
        · rw [List.mem_singleton] at he
          exact ⟨_, he⟩
      · split at he
        · split at he
          · exact absurd he (List.not_mem_nil _)
          · rw [List.mem_singleton] at he
            exact ⟨_, he⟩
        · exact absurd he (List.not_mem_nil _)

theorem playerHitApply_coin (s : GameState) (now : ℚ) (target : Player)
    (shooter? : Option Player)
    (hdied : target.health ≤ hitDamage shooter?) :
    (∀ pid u c, coinAward s.accounts target shooter? = some (pid, u, c) →
      (playerHitApply s now target shooter?).1.accounts =
          updateAccount s.accounts u (some c) ∧
        Emit.coinsUpdated pid c ∈ (playerHitApply s now target shooter?).2) ∧
    (coinAward s.accounts target shooter? = none →
      (playerHitApply s now target shooter?).1.accounts = s.accounts ∧
        ∀ pid c, Emit.coinsUpdated pid c ∉ (playerHitApply s now target shooter?).2) := by
  have hd : decide (max 0 (target.health - hitDamage shooter?) ≤ 0) = true := by
    rw [decide_eq_true_iff, max_le_iff]
    exact ⟨le_refl 0, by linarith⟩
  constructor
  · intro pid u c hca
    unfold playerHitApply
    dsimp only
    rw [hd, hca]
    simp only [if_true, maybeTriggerGameOver_accounts]
    constructor
    · trivial
    · simp [List.mem_append]
  · intro hca
    unfold playerHitApply
    dsimp only
    rw [hd, hca]
    simp only [if_true, maybeTriggerGameOver_accounts]
    constructor
    · trivial
    · intro pid c hmem
      simp only [List.mem_append, List.mem_singleton] at hmem
      rcases hmem with ((h | h) | h) | h
      · cases h
      · exact absurd h (List.not_mem_nil _)
      · cases h
      · rcases maybeTriggerGameOver_emits_gameOver _ _ h with ⟨n, hn⟩
        cases hn



theorem playerHit_to_apply (s : GameState) (now : ℚ) (payload : HitMsg)
    (tid : String) (target : Player)
    (ht : payload.targetId = some tid)
    (hfind : s.players.find? (fun p => p.id = tid) = some target)
    (halive : target.alive = true)
    (hdrop : botAllyDrop (effectiveShooter s payload) target = false)
    (hfresh : payload.bulletId = none ∨
      ∃ bid, payload.bulletId = some bid ∧ bid ∉ s.processedBulletHits) :
    ∃ s', playerHit s now payload =
        playerHitApply s' now target (effectiveShooter s payload) ∧
      s'.accounts = s.accounts := by
  rcases hfresh with hb | ⟨bid, hb, hmem⟩
  · refine ⟨s, ?_, rfl⟩
    simp only [playerHit, ht, hfind, halive, hdrop, hb, Bool.not_true,
      Bool.false_eq_true, if_false]
  · refine ⟨{ s with
        processedBulletHits := bid :: s.processedBulletHits
        activeBullets := removeActiveBullet (some bid) s.activeBullets }, ?_, rfl⟩
    simp only [playerHit, ht, hfind, halive, hdrop, hb, Bool.not_true,
      Bool.false_eq_true, if_false]
    rw [if_neg hmem]

/-- **C8.** On an elimination processed by the `playerHit` handler (damage
path reached and the weapon damage is lethal), coins are credited to the
shooter's persistent account — with a `coinsUpdated` message to the shooter —
if and only if the shooter has a (truthy) account username with an existing
account record and the kill is neither a self-account kill nor a kill of an
actual bot by a bot-allied-named shooter; in every excluded case the account
list is unchanged and no `coinsUpdated` message is sent. -/
theorem elimination_coin_credit_iff (s : GameState) (now : ℚ) (payload : HitMsg)
    (tid : String) (target : Player)
    (ht : payload.targetId = some tid)
    (hfind : s.players.find? (fun p => p.id = tid) = some target)
    (halive : target.alive = true)
    (hdrop : botAllyDrop (effectiveShooter s payload) target = false)
    (hfresh : payload.bulletId = none ∨
      ∃ bid, payload.bulletId = some bid ∧ bid ∉ s.processedBulletHits)
    (hdied : target.health ≤ hitDamage (effectiveShooter s payload)) :
    ((∃ pid c, Emit.coinsUpdated pid c ∈ (playerHit s now payload).2) ↔
      CreditCond s.accounts target (effectiveShooter s payload)) ∧
    (∀ pid u c,
      coinAward s.accounts target (effectiveShooter s payload) = some (pid, u, c) →
      (playerHit s now payload).1.accounts =
          updateAccount s.accounts u (some c) ∧
        Emit.coinsUpdated pid c ∈ (playerHit s now payload).2) ∧
    (¬ CreditCond s.accounts target (effectiveShooter s payload) →
      (playerHit s now payload).1.accounts = s.accounts ∧
        ∀ pid c, Emit.coinsUpdated pid c ∉ (playerHit s now payload).2) := by
  obtain ⟨s', heq, hacc⟩ :=
    playerHit_to_apply s now payload tid target ht hfind halive hdrop hfresh
  have hcoin := playerHitApply_coin s' now target (effectiveShooter s payload) hdied
  rw [hacc] at hcoin
  have hnone : ¬ CreditCond s.accounts target (effectiveShooter s payload) →
      coinAward s.accounts target (effectiveShooter s payload) = none := by
    intro hnc
    cases hca : coinAward s.accounts target (effectiveShooter s payload) with
    | none => rfl
    | some v =>
      exact absurd ((coinAward_some_iff _ _ _).mp ⟨v, hca⟩) hnc
  refine ⟨?_, ?_, ?_⟩
  · constructor
    · rintro ⟨pid, c, hmem⟩
      by_contra hnc
      rw [heq] at hmem
      exact (hcoin.2 (hnone hnc)).2 pid c hmem
    · intro hc
      obtain ⟨⟨pid, u, c⟩, hca⟩ := (coinAward_some_iff _ _ _).mpr hc
      refine ⟨pid, c, ?_⟩
      rw [heq]
      exact ((hcoin.1 pid u c hca)).2
  · intro pid u c hca
    rw [heq]
    exact hcoin.1 pid u c hca
  · intro hnc
    rw [heq]
    exact hcoin.2 (hnone hnc)

/-- A state where Bob is one pistol shot from death. -/
def wStateLow : GameState :=
  { wState with players := [wPlayerA, { wPlayerB with health := 20 }] }

theorem elimination_coin_credit_iff_witness :
    ((∃ pid c, Emit.coinsUpdated pid c ∈
        (playerHit wStateLow 7 (.obj (some "b") (some "a") (some 3))).2) ↔
      CreditCond wStateLow.accounts { wPlayerB with health := 20 }
        (effectiveShooter wStateLow (.obj (some "b") (some "a") (some 3)))) ∧
    (¬ CreditCond wStateLow.accounts { wPlayerB with health := 20 }
        (effectiveShooter wStateLow (.obj (some "b") (some "a") (some 3))) →
      (playerHit wStateLow 7 (.obj (some "b") (some "a") (some 3))).1.accounts =
          wStateLow.accounts ∧
        ∀ pid c, Emit.coinsUpdated pid c ∉
          (playerHit wStateLow 7 (.obj (some "b") (some "a") (some 3))).2) := by
  have h := elimination_coin_credit_iff wStateLow 7
    (.obj (some "b") (some "a") (some 3)) "b" { wPlayerB with health := 20 }
    rfl (by decide!) (by decide!) (by decide!)
    (Or.inr ⟨3, rfl, by decide!⟩) (by decide!)
  exact ⟨h.1, h.2.2⟩



/-- An untyped JavaScript value, as far as the `playerUpdate` handler can
observe one: a number, a string, a boolean, or `undefined` (also covering an
absent object field). -/
inductive JSVal where
  | num (q : ℚ)
  | str (s : String)
  | boolean (b : Bool)
  | undef
deriving DecidableEq, Repr

/-- The object form of a `playerUpdate` payload; absent fields are `undef`. -/
structure UpdatePayload where
  x : JSVal
  y : JSVal
  angle : JSVal
deriving DecidableEq, Repr

/-- A player as observed by the `playerUpdate` handler: since that handler
copies payload fields without any type check, the position/angle fields can
hold arbitrary JavaScript values. -/
structure ClientPlayer where
  id : String
  x : JSVal
  y : JSVal
  angle : JSVal
  alive : Bool
deriving DecidableEq, Repr

/-- Apply `f` to the first client-player entry with the given id. -/
def updateFirstClient (ps : List ClientPlayer) (pid : String)
    (f : ClientPlayer → ClientPlayer) : List ClientPlayer :=
  match ps with
  | [] => []
  | p :: rest =>
    if p.id = pid then f p :: rest else p :: updateFirstClient rest pid f

/-- Outcome of the `playerUpdate` handler: the new player list with the
broadcasts, or an uncaught `TypeError` (reading `.x` of a nullish payload). -/
inductive UpdateOutcome where
  | ok (players : List ClientPlayer) (emits : List Emit)
  | thrown
deriving DecidableEq, Repr

/-- The `playerUpdate` handler from gameServer.js: find the sender among the
active players; if found and alive, copy `data.x`, `data.y`, `data.angle`
verbatim — without any validation or type check — and broadcast `gameState`.
A nullish payload throws when its fields are read; a primitive non-null
payload behaves like an object whose fields are all `undefined`. -/
def playerUpdate (players : List ClientPlayer) (socketId : String)
    (payload : Option UpdatePayload) : UpdateOutcome :=
  match players.find? (fun p => p.id = socketId) with
  | none => .ok players []
  | some player =>
    if player.alive then
      match payload with
      | none => .thrown
      | some data =>
        .ok
          (updateFirstClient players socketId
            fun p => { p with x := data.x, y := data.y, angle := data.angle })
          [Emit.gameState]
    else .ok players []

/-- A live client player at a numeric position. -/
def wClient : ClientPlayer where
  id := "a"
  x := .num 100
  y := .num 100
  angle := .num 0
  alive := true

/-- Counterexample to C9 as stated: a `playerUpdate` whose `x` field is a
string (mistyped) is not dropped — the handler stores the string into the
player's `x` and still broadcasts `gameState`, so the state changes and a
broadcast is emitted. -/
theorem playerUpdate_validation_counterexample :
    playerUpdate [wClient] "a" (some ⟨.str "oops", .num 2, .undef⟩) =
      .ok [{ wClient with x := .str "oops", y := .num 2, angle := .undef }]
        [Emit.gameState] ∧
    [{ wClient with x := .str "oops", y := .num 2, angle := .undef }] ≠
      [wClient] := by decide!

/-- **C9 (amended).** The `playerUpdate` handler performs no validation or
type check at all: when the sender is an active, alive player, the payload's
`x`, `y`, `angle` are copied into the player verbatim — whatever their types,
including `undefined` — and a `gameState` broadcast is emitted; a nullish
payload makes the handler throw; only events for absent or dead players are
silently dropped with no state change and no broadcast. -/
theorem playerUpdate_no_validation (players : List ClientPlayer)
    (sid : String) (payload : Option UpdatePayload) :
    (players.find? (fun p => p.id = sid) = none →
      playerUpdate players sid payload = .ok players []) ∧
    (∀ p, players.find? (fun p => p.id = sid) = some p → p.alive = false →
      playerUpdate players sid payload = .ok players []) ∧
    (∀ p, players.find? (fun p => p.id = sid) = some p → p.alive = true →
      payload = none → playerUpdate players sid payload = .thrown) ∧
    (∀ p data, players.find? (fun p => p.id = sid) = some p → p.alive = true →
      payload = some data →
      playerUpdate players sid payload =
        .ok
          (updateFirstClient players sid
            fun q => { q with x := data.x, y := data.y, angle := data.angle })
          [Emit.gameState]) := by
  refine ⟨?_, ?_, ?_, ?_⟩
  · intro h
    simp only [playerUpdate, h]
  · intro p hfind hdead
    simp only [playerUpdate, hfind, hdead, Bool.false_eq_true, if_false]
  · intro p hfind halive hpay
    simp only [playerUpdate, hfind, halive, hpay, if_true]
  · intro p data hfind halive hpay
    simp only [playerUpdate, hfind, halive, hpay, if_true]

theorem playerUpdate_no_validation_witness :
    playerUpdate [wClient] "a" (some ⟨.str "oops", .num 2, .undef⟩) =
      .ok
        (updateFirstClient [wClient] "a"
          fun q => { q with x := JSVal.str "oops", y := JSVal.num 2,
                            angle := JSVal.undef })
        [Emit.gameState] ∧
    playerUpdate [{ wClient with alive := false }] "a" none =
      .ok [{ wClient with alive := false }] [] := by
  constructor
  · exact (playerUpdate_no_validation [wClient] "a"
      (some ⟨.str "oops", .num 2, .undef⟩)).2.2.2 wClient
      ⟨.str "oops", .num 2, .undef⟩ (by decide!) (by decide!) rfl
  · exact (playerUpdate_no_validation [{ wClient with alive := false }] "a"
      none).2.1 { wClient with alive := false } (by decide!) (by decide!)



/-- `DEFAULT_BULLET_RADIUS` from gameServer.js. -/
def DEFAULT_BULLET_RADIUS : ℚ := 5

/-- `DEFAULT_BULLET_SPEED` from gameServer.js. -/
def DEFAULT_BULLET_SPEED : ℚ := 10

/-- `BULLET_MAX_LIFETIME_MS` from gameServer.js. -/
def BULLET_MAX_LIFETIME_MS : ℚ := 4000

/-- `WEAPONS[w].bulletSpeed` from `src/public/weapons.js` (`none` when the
weapon key is absent from the registry). -/
def WEAPONS_bulletSpeed : String → Option ℚ
  | "pistol" => some 10
  | "autoRifle" => some 12
  | "sniper" => some 16
  | _ => none

/-- `WEAPONS[w].bulletRadius` from `src/public/weapons.js`. -/
def WEAPONS_bulletRadius : String → Option ℚ
  | "pistol" => some 5
  | "autoRifle" => some 6
  | "sniper" => some 10
  | _ => none

/-- `trackActiveBullet` from gameServer.js, for the bullet object
`{...bulletData, bulletId, playerId}` built by the `shoot` handler:
silently skip tracking unless `x`, `y` and `angle` are numbers (`bulletId`
is always the numeric counter the handler just assigned); derive speed and
radius from the payload, else the shooter's weapon stats, else the defaults;
convert per-frame speed to per-second and split it by angle into a velocity
vector.  The cosine and sine of the JavaScript runtime are abstracted as the
parameters `jscos`/`jssin` (no theorem below depends on their values). -/
def trackActiveBullet (now : ℚ) (jscos jssin : ℚ → ℚ) (b : ShootPayload)
    (bulletId : ℚ) (playerId : String) (shooter? : Option Player)
    (bullets : List TrackedBullet) : List TrackedBullet :=
  match b.x, b.y, b.angle with
  | some bx, some by', some bangle =>
    let weaponKey : Option String := match shooter? with
      | some sh => if sh.weapon = "" then none else some sh.weapon
      | none => none
    let speed : ℚ := match b.speed with
      | some sp => sp
      | none => match weaponKey with
        | some w => (WEAPONS_bulletSpeed w).getD DEFAULT_BULLET_SPEED
        | none => DEFAULT_BULLET_SPEED
    let radius : ℚ := match b.radius with
      | some r => r
      | none => match weaponKey with
        | some w => (WEAPONS_bulletRadius w).getD DEFAULT_BULLET_RADIUS
        | none => DEFAULT_BULLET_RADIUS
    let speedPerSec := speed * 60
    let vx := jscos bangle * speedPerSec
    let vy := jssin bangle * speedPerSec
    bullets ++
      [{ id := bulletId
         playerId := some playerId
         shooterIsBot := match shooter? with
           | some sh => sh.isBot
           | none => false
         x := bx
         y := by'
         angle := bangle
         radius := radius
         speedPerSec := speedPerSec
         vx := vx
         vy := vy
         createdAt := now
         lastUpdatedAt := now }]
  | _, _, _ => bullets

/-- The `shoot` handler from gameServer.js: drop the event when the sender is
absent or dead, when the payload's `x` or `y` is not numeric, or when the
straight path from the shooter to the muzzle point is wall-occluded (point
inside a wall, discrete sampling at step 2, or exact segment-vs-rectangle
intersection); otherwise broadcast `newBullet` with the fresh counter id and
register the bullet with the projectile simulator. -/
def shoot (jscos jssin : ℚ → ℚ) (s : GameState) (now : ℚ) (socketId : String)
    (bulletData : Option ShootPayload) : GameState × List Emit :=
  match s.players.find? (fun p => p.id = socketId) with
  | none => (s, [])
  | some player =>
    if !player.alive then (s, [])
    else
      match bulletData with
      | none => (s, [])
      | some bd =>
        match bd.x, bd.y with
        | some bx, some by' =>
          if isPointInsideAnyWall bx by' s.walls ||
              segmentCrossesWallDiscrete player.x player.y bx by' s.walls 2 ||
              lineIntersectsAnyWall player.x player.y bx by' s.walls then
            (s, [])
          else
            ({ s with
                nextBulletId := s.nextBulletId + 1
                activeBullets :=
                  trackActiveBullet now jscos jssin bd (s.nextBulletId : ℚ)
                    socketId (some player) s.activeBullets },
             [Emit.newBullet bd s.nextBulletId socketId])
        | _, _ => (s, [])



/-- The occlusion test of the `shoot` handler: muzzle point inside a wall,
discretized path sampling at step 2, or exact segment-vs-rectangle
intersection from the shooter to the muzzle. -/
def shootOccluded (px py bx by' : ℚ) (walls : List Wall) : Bool :=
  isPointInsideAnyWall bx by' walls ||
    segmentCrossesWallDiscrete px py bx by' walls 2 ||
    lineIntersectsAnyWall px py bx by' walls

/-- Counterexample to C3 as stated: a valid shot whose payload has no numeric
`angle` is broadcast as `newBullet` but silently not registered with the
projectile simulator — the active-bullet set stays unchanged, against the
claim that every accepted shot is both broadcast and registered. -/
theorem shoot_registration_counterexample :
    (shoot (fun _ => 1) (fun _ => 0) wState 0 "a"
        (some ⟨some 300, some 100, none, none, none⟩)).2 =
      [Emit.newBullet ⟨some 300, some 100, none, none, none⟩ 5 "a"] ∧
    (shoot (fun _ => 1) (fun _ => 0) wState 0 "a"
        (some ⟨some 300, some 100, none, none, none⟩)).1.activeBullets =
      wState.activeBullets := by decide!

/-- **C3 (amended).** For every `shoot` event: if the shooter is absent from
the active set, not alive, the payload or its `x`/`y` is missing or
non-numeric, or the straight path from the shooter to the muzzle point is
wall-occluded, then nothing happens (no broadcast, state unchanged);
otherwise exactly one `newBullet` with the fresh counter id is broadcast and
the counter is bumped, and the bullet is additionally registered with the
projectile simulator exactly when the payload's `angle` is also numeric, its
id differing from every already-tracked id whenever all tracked ids are below
the counter. -/
theorem shoot_reject_or_register (jscos jssin : ℚ → ℚ) (s : GameState)
    (now : ℚ) (sid : String) (bdata : Option ShootPayload) :
    (s.players.find? (fun p => p.id = sid) = none →
      shoot jscos jssin s now sid bdata = (s, [])) ∧
    (∀ player, s.players.find? (fun p => p.id = sid) = some player →
      player.alive = false → shoot jscos jssin s now sid bdata = (s, [])) ∧
    (∀ player, s.players.find? (fun p => p.id = sid) = some player →
      player.alive = true →
      (bdata = none ∨ ∃ bd, bdata = some bd ∧ (bd.x = none ∨ bd.y = none)) →
      shoot jscos jssin s now sid bdata = (s, [])) ∧
    (∀ player bd bx by', s.players.find? (fun p => p.id = sid) = some player →
      player.alive = true → bdata = some bd → bd.x = some bx → bd.y = some by' →
      shootOccluded player.x player.y bx by' s.walls = true →
      shoot jscos jssin s now sid bdata = (s, [])) ∧
    (∀ player bd bx by', s.players.find? (fun p => p.id = sid) = some player →
      player.alive = true → bdata = some bd → bd.x = some bx → bd.y = some by' →
      shootOccluded player.x player.y bx by' s.walls = false →
      shoot jscos jssin s now sid bdata =
        ({ s with
            nextBulletId := s.nextBulletId + 1
            activeBullets :=
              trackActiveBullet now jscos jssin bd (s.nextBulletId : ℚ) sid
                (some player) s.activeBullets },
         [Emit.newBullet bd s.nextBulletId sid]) ∧
      (bd.angle = none →
        trackActiveBullet now jscos jssin bd (s.nextBulletId : ℚ) sid
          (some player) s.activeBullets = s.activeBullets) ∧
      (∀ ang, bd.angle = some ang →
        ∃ tb, trackActiveBullet now jscos jssin bd (s.nextBulletId : ℚ) sid
            (some player) s.activeBullets = s.activeBullets ++ [tb] ∧
          tb.id = (s.nextBulletId : ℚ) ∧
          ((∀ b ∈ s.activeBullets, b.id < (s.nextBulletId : ℚ)) →
            ∀ b ∈ s.activeBullets, b.id ≠ tb.id))) := by
  refine ⟨?_, ?_, ?_, ?_, ?_⟩
  · intro h
    simp only [shoot, h]
  · intro player hfind hdead
    simp only [shoot, hfind, hdead, Bool.not_false, if_true]
  · intro player hfind halive hbad
    rcases hbad with h | ⟨bd, hbd, hxy⟩
    · simp only [shoot, hfind, halive, h, Bool.not_true, Bool.false_eq_true,
        if_false]
    · rcases hxy with hx | hy
      · cases hby : bd.y <;>
          simp only [shoot, hfind, halive, hbd, hx, hby, Bool.not_true,
            Bool.false_eq_true, if_false]
      · cases hbx : bd.x <;>
          simp only [shoot, hfind, halive, hbd, hbx, hy, Bool.not_true,
            Bool.false_eq_true, if_false]
  · intro player bd bx by' hfind halive hbd hx hy hocc
    simp only [shoot, hfind, halive, hbd, hx, hy, Bool.not_true,
      Bool.false_eq_true, if_false]
    rw [show (isPointInsideAnyWall bx by' s.walls ||
        segmentCrossesWallDiscrete player.x player.y bx by' s.walls 2 ||
        lineIntersectsAnyWall player.x player.y bx by' s.walls) = true from hocc]
    simp only [if_true]
  · intro player bd bx by' hfind halive hbd hx hy hocc
    refine ⟨?_, ?_, ?_⟩
    · simp only [shoot, hfind, halive, hbd, hx, hy, Bool.not_true,
        Bool.false_eq_true, if_false]
      rw [show (isPointInsideAnyWall bx by' s.walls ||
          segmentCrossesWallDiscrete player.x player.y bx by' s.walls 2 ||
          lineIntersectsAnyWall player.x player.y bx by' s.walls) = false from hocc]
      simp only [Bool.false_eq_true, if_false]
    · intro hangle
      simp only [trackActiveBullet, hx, hy, hangle]
    · intro ang hangle
      simp only [trackActiveBullet, hx, hy, hangle]
      refine ⟨_, rfl, rfl, ?_⟩
      intro hinv b hb
      exact ne_of_lt (hinv b hb)

theorem shoot_reject_or_register_witness :
    shoot (fun _ => 1) (fun _ => 0) wStateDup 0 "nobody" none = (wStateDup, []) ∧
    shoot (fun _ => 1) (fun _ => 0) wState 0 "a"
        (some ⟨some 300, some 100, some 0, none, none⟩) =
      ({ wState with
          nextBulletId := wState.nextBulletId + 1
          activeBullets :=
            trackActiveBullet 0 (fun _ => 1) (fun _ => 0)
              ⟨some 300, some 100, some 0, none, none⟩ (wState.nextBulletId : ℚ)
              "a" (some wPlayerA) wState.activeBullets },
       [Emit.newBullet ⟨some 300, some 100, some 0, none, none⟩
          wState.nextBulletId "a"]) := by
  constructor
  · exact (shoot_reject_or_register (fun _ => 1) (fun _ => 0) wStateDup 0
      "nobody" none).1 (by decide!)
  · exact ((shoot_reject_or_register (fun _ => 1) (fun _ => 0) wState 0 "a"
      (some ⟨some 300, some 100, some 0, none, none⟩)).2.2.2.2 wPlayerA
      ⟨some 300, some 100, some 0, none, none⟩ 300 100 (by decide!) (by decide!)
      rfl rfl rfl (by decide!)).1



/-- `BOT_CONFIG.canvasWidth` from gameServer.js. -/
def BOT_CONFIG_canvasWidth : ℚ := 900

/-- `BOT_CONFIG.canvasHeight` from gameServer.js. -/
def BOT_CONFIG_canvasHeight : ℚ := 600

/-- `BOT_CONFIG.playerRadius` from gameServer.js. -/
def BOT_CONFIG_playerRadius : ℚ := 20

/-- The per-bullet integration step of `advanceActiveBullets`: advance the
position by the stored velocity times the elapsed wall-clock delta, clamped
into `[0, 200]` milliseconds, and stamp `lastUpdatedAt`. -/
def integrateBullet (now : ℚ) (b : TrackedBullet) : TrackedBullet :=
  let dtMs := max 0 (min 200 (now - b.lastUpdatedAt))
  let dtSec := dtMs / 1000
  { b with x := b.x + b.vx * dtSec, y := b.y + b.vy * dtSec,
           lastUpdatedAt := now }

/-- The removal condition of `advanceActiveBullets`, evaluated at the
integrated position: lifetime beyond `BULLET_MAX_LIFETIME_MS`, centre out of
the playfield by more than the radius, or wall impact
(circle-vs-rectangle at the new position, or discrete sampling of the segment
from the previous to the new position at step 2). -/
def bulletRemovalCond (now : ℚ) (walls : List Wall) (b : TrackedBullet) : Bool :=
  let b' := integrateBullet now b
  let agedOut := decide (now - b.createdAt > BULLET_MAX_LIFETIME_MS)
  let outOfBounds :=
    decide (b'.x < -b'.radius) ||
    decide (b'.x > BOT_CONFIG_canvasWidth + b'.radius) ||
    decide (b'.y < -b'.radius) ||
    decide (b'.y > BOT_CONFIG_canvasHeight + b'.radius)
  let hitWall :=
    circleCollidesAnyWall b'.x b'.y b'.radius walls ||
    segmentCrossesWallDiscrete b.x b.y b'.x b'.y walls 2
  agedOut || outOfBounds || hitWall

/-- `advanceActiveBullets` from gameServer.js: integrate every tracked bullet
and drop exactly the ones meeting the removal condition. -/
def advanceActiveBullets (now : ℚ) (walls : List Wall)
    (bullets : List TrackedBullet) : List TrackedBullet :=
  bullets.filterMap fun b =>
    if bulletRemovalCond now walls b then none else some (integrateBullet now b)

/-- The bot-tick call site of `advanceActiveBullets` (`runBotsTick`): only the
active-bullet list of the server state is touched. -/
def advanceTickBullets (s : GameState) (now : ℚ) : GameState :=
  { s with activeBullets := advanceActiveBullets now s.walls s.activeBullets }

/-- A sample tracked bullet last integrated 1000 ms ago. -/
def cStaleBullet : TrackedBullet :=
  { wBullet3 with x := 100, y := 100, vx := 100, vy := 0, createdAt := 0,
                  lastUpdatedAt := 0 }

/-- Counterexample to C4 as stated: after a 1000 ms gap the code integrates
only a clamped 200 ms of motion, not the elapsed wall-clock delta: the
surviving bullet's position differs from the claimed
`position + velocity * elapsed` at this concrete input. -/
theorem advanceActiveBullets_dt_counterexample :
    (advanceActiveBullets 1000 [] [cStaleBullet]).map (fun b => (b.x, b.y)) ≠
      [(cStaleBullet.x + cStaleBullet.vx *
          ((1000 - cStaleBullet.lastUpdatedAt) / 1000),
        cStaleBullet.y + cStaleBullet.vy *
          ((1000 - cStaleBullet.lastUpdatedAt) / 1000))] := by decide!

/-- **C4 (amended).** On each bot tick `advanceActiveBullets` integrates every
tracked bullet's position by the elapsed wall-clock delta clamped into
`[0, 200]` ms, and removes a bullet exactly when it has aged past the 4000 ms
lifetime, its centre has left the playfield bounds by more than its radius,
or it impacts a wall (circle-vs-rectangle at the new position, or discrete
sampling of the travelled segment); the players (their health and alive flags
in particular) are untouched. -/
theorem advanceActiveBullets_spec (now : ℚ) (walls : List Wall)
    (bullets : List TrackedBullet) (s : GameState) :
    advanceActiveBullets now walls bullets =
      (bullets.filter fun b => !bulletRemovalCond now walls b).map
        (integrateBullet now) ∧
    (∀ b, (integrateBullet now b).x =
        b.x + b.vx * (max 0 (min 200 (now - b.lastUpdatedAt)) / 1000) ∧
      (integrateBullet now b).y =
        b.y + b.vy * (max 0 (min 200 (now - b.lastUpdatedAt)) / 1000)) ∧
    (advanceTickBullets s now).players = s.players ∧
    idHealthAlive (advanceTickBullets s now).players =
      idHealthAlive s.players := by
  refine ⟨?_, ?_, rfl, rfl⟩
  · induction bullets with
    | nil => rfl
    | cons b rest ih =>
      simp only [advanceActiveBullets, List.filterMap_cons, List.filter_cons]
      cases h : bulletRemovalCond now walls b with
      | true =>
        simp only [if_true, Bool.not_true, Bool.false_eq_true, if_false]
        exact ih
      | false =>
        simp only [if_false, Bool.not_false, if_true, List.map_cons,
          Bool.false_eq_true]
        rw [← ih]
        rfl
  · intro b
    exact ⟨rfl, rfl⟩



/-- `candidateIsValid` from `getValidSpawnPosition`: wall clearance for the
entity radius 20, plus — for every alive existing player — minimum spawn
distance 150 and at least one wall blocking the direct line of sight. -/
def candidateIsValid (walls : List Wall) (players : List Player)
    (cx cy : ℚ) : Bool :=
  !circleCollidesAnyWall cx cy 20 walls &&
    players.all fun p =>
      !p.alive ||
        (!sqrtLt ((cx - p.x) * (cx - p.x) + (cy - p.y) * (cy - p.y)) 150 &&
          lineIntersectsAnyWall cx cy p.x p.y walls)

/-- The fallback score of a spawn candidate: `blockedCount * 10000 + minDist`
(0 when there is no alive player).  The irrational `minDist` is represented
through its exact square and approximated by `ratSqrt` only inside the final
score value, mirroring the code's floating-point score. -/
def spawnScore (walls : List Wall) (players : List Player) (x y : ℚ) : ℚ :=
  let blockedCount :=
    (players.filter fun p =>
      p.alive && lineIntersectsAnyWall x y p.x p.y walls).length
  let minDistSq := players.foldl
    (fun (acc : Option ℚ) p =>
      if p.alive then
        let d2 := (x - p.x) * (x - p.x) + (y - p.y) * (y - p.y)
        match acc with
        | none => some d2
        | some m => if d2 < m then some d2 else some m
      else acc)
    none
  (blockedCount : ℚ) * 10000 +
    (match minDistSq with
     | some m => ratSqrt m
     | none => 0)

/-- The x sample of spawn attempt `i`: `rand * (900 - 2*20) + 20`.  The
`Math.random()` stream is modelled as the indexed function `rand`; attempt
`i` consumes indices `2*i` and `2*i + 1`. -/
def spawnSampleX (rand : ℕ → ℚ) (i : ℕ) : ℚ :=
  rand (2 * i) * (BOT_CONFIG_canvasWidth - 2 * 20) + 20

/-- The y sample of spawn attempt `i`. -/
def spawnSampleY (rand : ℕ → ℚ) (i : ℕ) : ℚ :=
  rand (2 * i + 1) * (BOT_CONFIG_canvasHeight - 2 * 20) + 20

/-- The main sampling loop of `getValidSpawnPosition` (`MAX_ATTEMPTS` fuel):
return the first fully valid candidate (`Sum.inl`), else the best-scoring
non-wall-overlapping fallback seen (`Sum.inr`). -/
def spawnSearch (rand : ℕ → ℚ) (walls : List Wall) (players : List Player) :
    ℕ → ℕ → Option (Pt × ℚ) → Pt ⊕ Option (Pt × ℚ)
  | _, 0, best => Sum.inr best
  | i, n + 1, best =>
    let x := spawnSampleX rand i
    let y := spawnSampleY rand i
    if candidateIsValid walls players x y then Sum.inl ⟨x, y⟩
    else
      let score := spawnScore walls players x y
      let better : Bool := match best with
        | none => true
        | some (_, bs) => decide (bs < score)
      let best' :=
        if better && !circleCollidesAnyWall x y 20 walls then
          some (⟨x, y⟩, score)
        else best
      spawnSearch rand walls players (i + 1) n best'

/-- The last-resort loop of `getValidSpawnPosition`: up to 200 further
samples checked for wall clearance only. -/
def spawnLastResort (rand : ℕ → ℚ) (walls : List Wall) :
    ℕ → ℕ → Option Pt
  | _, 0 => none
  | i, n + 1 =>
    let x := spawnSampleX rand i
    let y := spawnSampleY rand i
    if !circleCollidesAnyWall x y 20 walls then some ⟨x, y⟩
    else spawnLastResort rand walls (i + 1) n

/-- `getValidSpawnPosition` from gameServer.js: 1000 scored attempts, then the
best fallback, then 200 clearance-only attempts, then the playfield centre. -/
def getValidSpawnPosition (rand : ℕ → ℚ) (walls : List Wall)
    (players : List Player) : Pt :=
  match spawnSearch rand walls players 0 1000 none with
  | Sum.inl p => p
  | Sum.inr (some (p, _)) => p
  | Sum.inr none =>
    match spawnLastResort rand walls 1000 200 with
    | some p => p
    | none => ⟨BOT_CONFIG_canvasWidth / 2, BOT_CONFIG_canvasHeight / 2⟩



theorem spawnSearch_inl_valid (rand : ℕ → ℚ) (walls : List Wall)
    (players : List Player) :
    ∀ (n i : ℕ) (best : Option (Pt × ℚ)) (p : Pt),
      spawnSearch rand walls players i n best = Sum.inl p →
      candidateIsValid walls players p.x p.y = true := by
  intro n
  induction n with
  | zero =>
    intro i best p h
    simp only [spawnSearch] at h
    exact Sum.noConfusion h
  | succ n ih =>
    intro i best p h
    rw [spawnSearch] at h
    by_cases hv : candidateIsValid walls players (spawnSampleX rand i)
        (spawnSampleY rand i) = true
    · rw [if_pos hv] at h
      cases h
      exact hv
    · rw [if_neg hv] at h
      exact ih _ _ _ h

theorem spawnBest_step_inv (walls : List Wall) (best : Option (Pt × ℚ))
    (better : Bool) (x y score : ℚ)
    (hbest : ∀ q s0, best = some (q, s0) →
      circleCollidesAnyWall q.x q.y 20 walls = false) :
    ∀ q s0,
      (if better && !circleCollidesAnyWall x y 20 walls then
          some ((⟨x, y⟩ : Pt), score)
        else best) = some (q, s0) →
      circleCollidesAnyWall q.x q.y 20 walls = false := by
  intro q s0 h
  by_cases hcond : (better && !circleCollidesAnyWall x y 20 walls) = true
  · rw [if_pos hcond] at h
    injection h with h2
    obtain ⟨hq, -⟩ := Prod.mk.injEq .. ▸ h2
    rw [Bool.and_eq_true] at hcond
    have hclear := hcond.2
    simp only [Bool.not_eq_true'] at hclear
    rw [← hq]
    exact hclear
  · rw [if_neg hcond] at h
    exact hbest q s0 h

theorem spawnSearch_inr_clear (rand : ℕ → ℚ) (walls : List Wall)
    (players : List Player) :
    ∀ (n i : ℕ) (best : Option (Pt × ℚ)),
      (∀ q s0, best = some (q, s0) →
        circleCollidesAnyWall q.x q.y 20 walls = false) →
      ∀ p sc, spawnSearch rand walls players i n best = Sum.inr (some (p, sc)) →
        circleCollidesAnyWall p.x p.y 20 walls = false := by
  intro n
  induction n with
  | zero =>
    intro i best hbest p sc h
    simp only [spawnSearch] at h
    injection h with h2
    exact hbest p sc h2
  | succ n ih =>
    intro i best hbest p sc h
    rw [spawnSearch] at h
    by_cases hv : candidateIsValid walls players (spawnSampleX rand i)
        (spawnSampleY rand i) = true
    · rw [if_pos hv] at h
      exact Sum.noConfusion h
    · rw [if_neg hv] at h
      exact ih _ _ (spawnBest_step_inv walls best _ _ _ _ hbest) p sc h

theorem spawnLastResort_some_clear (rand : ℕ → ℚ) (walls : List Wall) :
    ∀ (n i : ℕ) (p : Pt), spawnLastResort rand walls i n = some p →
      circleCollidesAnyWall p.x p.y 20 walls = false := by
  intro n
  induction n with
  | zero =>
    intro i p h
    simp only [spawnLastResort] at h
    exact Option.noConfusion h
  | succ n ih =>
    intro i p h
    rw [spawnLastResort] at h
    by_cases hcol : circleCollidesAnyWall (spawnSampleX rand i)
        (spawnSampleY rand i) 20 walls = true
    · rw [hcol] at h
      simp only [Bool.not_true, Bool.false_eq_true, if_false] at h
      exact ih _ _ h
    · simp only [Bool.not_eq_true] at hcol
      rw [hcol] at h
      simp only [Bool.not_false, if_true, Option.some.injEq] at h
      rw [← h]
      exact hcol

theorem spawnSearch_congr (rand rand' : ℕ → ℚ) (walls : List Wall)
    (players : List Player) :
    ∀ (n i : ℕ) (best : Option (Pt × ℚ)),
      (∀ j, j < 2 * (i + n) → rand j = rand' j) →
      spawnSearch rand walls players i n best =
        spawnSearch rand' walls players i n best := by
  intro n
  induction n with
  | zero => intro i best _; rfl
  | succ n ih =>
    intro i best hagree
    have hx : spawnSampleX rand i = spawnSampleX rand' i := by
      unfold spawnSampleX
      rw [hagree (2 * i) (by omega)]
    have hy : spawnSampleY rand i = spawnSampleY rand' i := by
      unfold spawnSampleY
      rw [hagree (2 * i + 1) (by omega)]
    rw [spawnSearch, spawnSearch, hx, hy]
    by_cases hv : candidateIsValid walls players (spawnSampleX rand' i)
        (spawnSampleY rand' i) = true
    · rw [if_pos hv, if_pos hv]
    · rw [if_neg hv, if_neg hv]
      exact ih (i + 1) _ fun j hj => hagree j (by omega)

theorem spawnLastResort_congr (rand rand' : ℕ → ℚ) (walls : List Wall) :
    ∀ (n i : ℕ),
      (∀ j, j < 2 * (i + n) → rand j = rand' j) →
      spawnLastResort rand walls i n = spawnLastResort rand' walls i n := by
  intro n
  induction n with
  | zero => intro i _; rfl
  | succ n ih =>
    intro i hagree
    have hx : spawnSampleX rand i = spawnSampleX rand' i := by
      unfold spawnSampleX
      rw [hagree (2 * i) (by omega)]
    have hy : spawnSampleY rand i = spawnSampleY rand' i := by
      unfold spawnSampleY
      rw [hagree (2 * i + 1) (by omega)]
    rw [spawnLastResort, spawnLastResort, hx, hy]
    by_cases hcol : circleCollidesAnyWall (spawnSampleX rand' i)
        (spawnSampleY rand' i) 20 walls = true
    · rw [hcol]
      simp only [Bool.not_true, Bool.false_eq_true, if_false]
      exact ih (i + 1) fun j hj => hagree j (by omega)
    · simp only [Bool.not_eq_true] at hcol
      rw [hcol]
      rfl

/-- Counterexample to C6 as stated: with a single wall covering the whole
playfield every sampled candidate overlaps a wall, so the search falls
through to the final playfield-centre return — and the clearance circle of
that returned point does intersect a wall. -/
theorem getValidSpawnPosition_center_counterexample :
    getValidSpawnPosition (fun _ => 0) [⟨0, 0, 900, 600⟩] [] = ⟨450, 300⟩ ∧
    circleCollidesAnyWall 450 300 20 [⟨0, 0, 900, 600⟩] = true := by decide!

/-- **C6 (amended).** Every spawn point returned by `getValidSpawnPosition`
through its three sampling categories — the first fully valid sample, the
best-scoring fallback candidate, and the last-resort wall-clearance-only
sample — has its clearance circle (entity radius 20) not intersecting any
wall; only the absolute-last-resort playfield-centre return is exempt from
the clearance guarantee.  The search is bounded: it consumes at most the
first 2400 values of the random stream, so agreeing streams give equal
results. -/
theorem getValidSpawnPosition_clearance (rand rand' : ℕ → ℚ)
    (walls : List Wall) (players : List Player) :
    (getValidSpawnPosition rand walls players =
        ⟨BOT_CONFIG_canvasWidth / 2, BOT_CONFIG_canvasHeight / 2⟩ ∨
      circleCollidesAnyWall (getValidSpawnPosition rand walls players).x
        (getValidSpawnPosition rand walls players).y 20 walls = false) ∧
    ((∀ j, j < 2400 → rand j = rand' j) →
      getValidSpawnPosition rand walls players =
        getValidSpawnPosition rand' walls players) := by
  constructor
  · unfold getValidSpawnPosition
    cases hsearch : spawnSearch rand walls players 0 1000 none with
    | inl p =>
      right
      have hv := spawnSearch_inl_valid rand walls players 1000 0 none p hsearch
      unfold candidateIsValid at hv
      rw [Bool.and_eq_true] at hv
      have := hv.1
      simp only [Bool.not_eq_true'] at this
      simpa using this
    | inr best =>
      cases best with
      | some q =>
        right
        obtain ⟨p, sc⟩ := q
        have := spawnSearch_inr_clear rand walls players 1000 0 none
          (fun q s0 h => by cases h) p sc hsearch
        simpa using this
      | none =>
        cases hlast : spawnLastResort rand walls 1000 200 with
        | some p =>
          right
          have := spawnLastResort_some_clear rand walls 200 1000 p hlast
          simpa using this
        | none => left; rfl
  · intro hagree
    unfold getValidSpawnPosition
    rw [spawnSearch_congr rand rand' walls players 1000 0 none
      (fun j hj => hagree j (by omega)),
      spawnLastResort_congr rand rand' walls 200 1000
        (fun j hj => hagree j (by omega))]

theorem getValidSpawnPosition_clearance_witness :
    (getValidSpawnPosition (fun _ => 0) [] [] = ⟨450, 300⟩ ∨
      circleCollidesAnyWall (getValidSpawnPosition (fun _ => 0) [] []).x
        (getValidSpawnPosition (fun _ => 0) [] []).y 20 [] = false) ∧
    getValidSpawnPosition (fun _ => 0) [] [] =
      getValidSpawnPosition (fun j => if j < 2400 then 0 else 1) [] [] := by
  have h := getValidSpawnPosition_clearance (fun _ => 0)
    (fun j => if j < 2400 then 0 else 1) [] []
  refine ⟨?_, ?_⟩
  · have hx := h.1
    unfold BOT_CONFIG_canvasWidth BOT_CONFIG_canvasHeight at hx
    norm_num at hx ⊢
    exact hx
  · exact h.2 fun j hj => by simp [hj]



/-- The navigation grid built by `buildNavGrid`: walkability matrix plus the
parameters the pathfinder reads back from it. -/
structure NavGrid where
  cellSize : ℚ
  cols : ℕ
  rows : ℕ
  walkable : List (List Bool)
  radius : ℚ
  width : ℚ
  height : ℚ
  walls : List Wall
deriving DecidableEq, Repr

/-- `worldToGrid` from gameServer.js: floor-divide by the cell size and clamp
into the grid. -/
def worldToGrid (x y : ℚ) (nav : NavGrid) : ℤ × ℤ :=
  (max 0 (min ((nav.cols : ℤ) - 1) ((x / nav.cellSize)).floor),
   max 0 (min ((nav.rows : ℤ) - 1) ((y / nav.cellSize)).floor))

/-- `gridToWorld` from gameServer.js: the centre of a grid cell. -/
def gridToWorld (col row : ℤ) (nav : NavGrid) : Pt :=
  ⟨(col : ℚ) * nav.cellSize + nav.cellSize / 2,
   (row : ℚ) * nav.cellSize + nav.cellSize / 2⟩

/-- `isCellWithinBounds` from gameServer.js. -/
def isCellWithinBounds (nav : NavGrid) (col row : ℤ) : Bool :=
  decide (0 ≤ col) && decide (0 ≤ row) && decide (col < (nav.cols : ℤ)) &&
    decide (row < (nav.rows : ℤ))

/-- Walkability lookup (`nav.walkable[row][col]`, `false` when a row or cell
is missing, matching the JS falsy check). -/
def navWalkableAt (nav : NavGrid) (col row : ℤ) : Bool :=
  (nav.walkable.getD row.toNat []).getD col.toNat false

/-- `collidesWithBulletsForPath` from gameServer.js: a tracked bullet within
`avoidRadius + radius` of the point (`avoidRadius` is the player radius 20;
bullet coordinates are typed as numbers here). -/
def collidesWithBulletsForPath (x y radius : ℚ)
    (bullets : List TrackedBullet) : Bool :=
  bullets.any fun b =>
    decide ((x - b.x) * (x - b.x) + (y - b.y) * (y - b.y) <
      (BOT_CONFIG_playerRadius + radius) * (BOT_CONFIG_playerRadius + radius))

/-- `isCellClear` from gameServer.js: within bounds, walkable, and the cell
centre is clear of blocking bullets. -/
def isCellClear (nav : NavGrid) (col row : ℤ)
    (bullets : List TrackedBullet) : Bool :=
  isCellWithinBounds nav col row && navWalkableAt nav col row &&
    !collidesWithBulletsForPath (gridToWorld col row nav).x
      (gridToWorld col row nav).y nav.radius bullets

/-- The offsets of expanding ring `ring` of `findNearestClearCell`, in the
code's iteration order (`dr` outer ascending, `dc` inner ascending, keeping
only the ring boundary). -/
def ringCells (ring : ℕ) : List (ℤ × ℤ) :=
  (List.range (2 * ring + 1)).flatMap fun dri =>
    (List.range (2 * ring + 1)).filterMap fun dci =>
      let dr : ℤ := (dri : ℤ) - ring
      let dc : ℤ := (dci : ℤ) - ring
      if dc.natAbs ≠ ring ∧ dr.natAbs ≠ ring then none else some (dc, dr)

/-- `findNearestClearCell` from gameServer.js with the default `maxRing = 3`:
the cell itself if clear, else the first clear cell on the expanding rings. -/
def findNearestClearCell (nav : NavGrid) (bullets : List TrackedBullet)
    (startCol startRow : ℤ) : Option (ℤ × ℤ) :=
  if isCellClear nav startCol startRow bullets then some (startCol, startRow)
  else
    ((List.range 3).flatMap fun r => ringCells (r + 1)).findSome? fun d =>
      if isCellClear nav (startCol + d.1) (startRow + d.2) bullets then
        some (startCol + d.1, startRow + d.2)
      else none

/-- The start/goal snapping of `findPath`: the literal cell when clear, else
the bounded expanding-ring search. -/
def snapCell (nav : NavGrid) (bullets : List TrackedBullet) (pos : Pt) :
    Option (ℤ × ℤ) :=
  let cell := worldToGrid pos.x pos.y nav
  if isCellClear nav cell.1 cell.2 bullets then some cell
  else findNearestClearCell nav bullets cell.1 cell.2

/-- `isPositionBlockedForPath` from gameServer.js: playfield-boundary
clearance, wall clearance, and bullet clearance at a world position. -/
def isPositionBlockedForPath (x y : ℚ) (nav : NavGrid)
    (bullets : List TrackedBullet) : Bool :=
  decide (x < nav.radius) || decide (x > nav.width - nav.radius) ||
    decide (y < nav.radius) || decide (y > nav.height - nav.radius) ||
    circleCollidesAnyWall x y nav.radius nav.walls ||
    collidesWithBulletsForPath x y nav.radius bullets

/-- `directPathClear` from gameServer.js: sample the straight segment at step
`max 4 (radius / 2)` (excluding the start point) and require every sample to
be unblocked; degenerate segments (`dist < 10⁻³`, i.e. squared distance below
`10⁻⁶`) are clear. -/
def directPathClear (ax ay bx by' : ℚ) (nav : NavGrid)
    (bullets : List TrackedBullet) : Bool :=
  let dx := bx - ax
  let dy := by' - ay
  if dx * dx + dy * dy < 1 / 1000000 then true
  else
    let step := max 4 (nav.radius * (1 / 2))
    let steps := max 1 (ceilSqrtDiv (dx * dx + dy * dy) step)
    (List.range steps).all fun j =>
      let p := segSample ax ay dx dy (j + 1) steps
      !isPositionBlockedForPath p.x p.y nav bullets

/-- The candidate indices scanned by `smoothPath`'s inner loop: from the last
waypoint down to `anchor + 1`. -/
def smoothCandidates (points : List Pt) (anchor : ℕ) : List ℕ :=
  (List.range (points.length - anchor - 1)).map fun k => points.length - 1 - k

/-- The clear-segment test of `smoothPath`'s inner loop, from the anchor
waypoint to waypoint `i`. -/
def smoothPred (points : List Pt) (nav : NavGrid)
    (bullets : List TrackedBullet) (anchor : ℕ) : ℕ → Bool := fun i =>
  directPathClear (points.getD anchor ⟨0, 0⟩).x (points.getD anchor ⟨0, 0⟩).y
    (points.getD i ⟨0, 0⟩).x (points.getD i ⟨0, 0⟩).y nav bullets

/-- The inner scan of `smoothPath`: the farthest waypoint index (scanning from
the end down to `anchor + 1`) with a clear straight segment from the anchor;
defaults to `anchor + 1` when none is clear. -/
def farthestClear (points : List Pt) (nav : NavGrid)
    (bullets : List TrackedBullet) (anchor : ℕ) : ℕ :=
  ((smoothCandidates points anchor).find?
    (smoothPred points nav bullets anchor)).getD (anchor + 1)

/-- The greedy string-pulling loop of `smoothPath`, with explicit fuel (the
anchor strictly increases, so `points.length` steps always suffice). -/
def smoothAux (points : List Pt) (nav : NavGrid)
    (bullets : List TrackedBullet) : ℕ → ℕ → List Pt
  | 0, _ => []
  | fuel + 1, anchor =>
    if anchor < points.length - 1 then
      let next := farthestClear points nav bullets anchor
      points.getD next ⟨0, 0⟩ :: smoothAux points nav bullets fuel next
    else []

/-- `smoothPath` from gameServer.js. -/
def smoothPath (points : List Pt) (nav : NavGrid)
    (bullets : List TrackedBullet) : List Pt :=
  if points.length ≤ 2 then points
  else points.headD ⟨0, 0⟩ :: smoothAux points nav bullets points.length 0



/-- An exact A* g-score: the value `a + b·√2` accumulated from cardinal
(cost 1) and diagonal (cost `Math.SQRT2`) steps. -/
structure GVal where
  a : ℕ
  b : ℕ
deriving DecidableEq, Repr, Inhabited

/-- Addition of g-scores. -/
def GVal.add (g1 g2 : GVal) : GVal := ⟨g1.a + g2.a, g1.b + g2.b⟩

/-- Exact decision of `x ≤ y·√2` for integers (squaring by sign analysis;
`x² = 2y²` has no nonzero integer solutions, so ties cannot occur). -/
def intLeSqrt2 (x y : ℤ) : Bool :=
  if 0 ≤ y then decide (x ≤ 0) || decide (x * x ≤ 2 * y * y)
  else decide (x < 0) && decide (2 * y * y ≤ x * x)

/-- Exact decision of `a₁ + b₁√2 ≤ a₂ + b₂√2` (the code's `>=` test on
g-scores, here exact instead of floating point). -/
def GVal.leB (g1 g2 : GVal) : Bool :=
  intLeSqrt2 ((g1.a : ℤ) - g2.a) ((g2.b : ℤ) - g1.b)

/-- An A* f-score: the exact g-part plus the radicand of the Euclidean
cell-distance heuristic `√m`. -/
structure FVal where
  g : GVal
  m : ℕ
deriving DecidableEq, Repr, Inhabited

/-- Rational approximation of an f-score, used only to order the open list:
the code orders floating-point f-scores, and no theorem below depends on the
order in which A* pops open nodes. -/
def FVal.approx (f : FVal) : ℚ :=
  (f.g.a : ℚ) + (f.g.b : ℚ) * ratSqrt 2 + ratSqrt (f.m : ℚ)

/-- Strict f-score comparison (`open[i].f < open[bestIdx].f`). -/
def FVal.ltB (f1 f2 : FVal) : Bool := decide (f1.approx < f2.approx)

/-- Association-list lookup with decidable key equality. -/
def alookup {α : Type} [DecidableEq α] {β : Type} (k : α) :
    List (α × β) → Option β
  | [] => none
  | (k', v) :: rest => if k' = k then some v else alookup k rest

/-- Association-list update-or-insert keeping keys unique. -/
def aupsert {α : Type} [DecidableEq α] {β : Type} (k : α) (v : β) :
    List (α × β) → List (α × β)
  | [] => [(k, v)]
  | (k', v') :: rest =>
    if k' = k then (k, v) :: rest else (k', v') :: aupsert k v rest

/-- An entry of the A* open list (`{key, f, col, row}`). -/
structure AStarNode where
  key : ℤ × ℤ
  f : FVal
  col : ℤ
  row : ℤ
deriving DecidableEq, Repr, Inhabited

/-- The mutable search state of `findPath`. -/
structure AStarState where
  openList : List AStarNode
  openSet : List (ℤ × ℤ)
  cameFrom : List ((ℤ × ℤ) × (ℤ × ℤ))
  gScore : List ((ℤ × ℤ) × GVal)
  fScore : List ((ℤ × ℤ) × FVal)
deriving Repr

/-- The eight A* directions with their step costs, in the code's order. -/
def astarDirections : List ((ℤ × ℤ) × GVal) :=
  [((1, 0), ⟨1, 0⟩), ((-1, 0), ⟨1, 0⟩), ((0, 1), ⟨1, 0⟩), ((0, -1), ⟨1, 0⟩),
   ((1, 1), ⟨0, 1⟩), ((-1, 1), ⟨0, 1⟩), ((1, -1), ⟨0, 1⟩), ((-1, -1), ⟨0, 1⟩)]

/-- Index of the minimum-f node in the open list (ties keep the earlier
index, as in the code's scan). -/
def bestIdxAux : List AStarNode → FVal → ℕ → ℕ → ℕ
  | [], _, _, best => best
  | nd :: rest, bestF, i, best =>
    if FVal.ltB nd.f bestF then bestIdxAux rest nd.f (i + 1) i
    else bestIdxAux rest bestF (i + 1) best

/-- `bestIdx` scan of the open list starting from index 0. -/
def selectBestIdx : List AStarNode → ℕ
  | [] => 0
  | nd :: rest => bestIdxAux rest nd.f 1 0

/-- Set the f-score of the first open node with the given key (the
`existing.f = fScore[neighborKey]` branch). -/
def updateNodeF (key : ℤ × ℤ) (f : FVal) : List AStarNode → List AStarNode
  | [] => []
  | nd :: rest =>
    if nd.key = key then { nd with f := f } :: rest
    else nd :: updateNodeF key f rest

/-- The neighbour-relaxation step of the A* loop body: bounds check, clear
check, the no-corner-cutting restriction for diagonal moves, then g-score
relaxation and open-list bookkeeping. -/
def expandNeighbor (nav : NavGrid) (bullets : List TrackedBullet)
    (goal : ℤ × ℤ) (current : AStarNode) (st : AStarState)
    (dir : (ℤ × ℤ) × GVal) : AStarState :=
  let nCol := current.col + dir.1.1
  let nRow := current.row + dir.1.2
  if !isCellWithinBounds nav nCol nRow then st
  else if !isCellClear nav nCol nRow bullets then st
  else if (dir.1.1 ≠ 0 ∧ dir.1.2 ≠ 0) ∧
      (¬(isCellClear nav (current.col + dir.1.1) current.row bullets = true) ∨
        ¬(isCellClear nav current.col (current.row + dir.1.2) bullets = true)) then
    st
  else
    match alookup current.key st.gScore with
    | none => st
    | some gc =>
      let tentativeG := gc.add dir.2
      let keep : Bool := match alookup (nCol, nRow) st.gScore with
        | some gn => !(GVal.leB gn tentativeG)
        | none => true
      if !keep then st
      else
        let fv : FVal :=
          ⟨tentativeG, ((goal.1 - nCol) * (goal.1 - nCol) +
            (goal.2 - nRow) * (goal.2 - nRow)).toNat⟩
        let st1 :=
          { st with
              cameFrom := aupsert (nCol, nRow) current.key st.cameFrom
              gScore := aupsert (nCol, nRow) tentativeG st.gScore
              fScore := aupsert (nCol, nRow) fv st.fScore }
        if (nCol, nRow) ∈ st1.openSet then
          { st1 with openList := updateNodeF (nCol, nRow) fv st1.openList }
        else
          { st1 with
              openList := st1.openList ++ [⟨(nCol, nRow), fv, nCol, nRow⟩]
              openSet := (nCol, nRow) :: st1.openSet }

/-- `reconstructPath`'s key chain: follow `cameFrom` from the goal key, with
fuel one more than the table size (g-scores strictly decrease along parents,
so the chain can never be longer). -/
def reconstructKeys (cameFrom : List ((ℤ × ℤ) × (ℤ × ℤ))) :
    ℕ → ℤ × ℤ → List (ℤ × ℤ)
  | 0, _ => []
  | fuel + 1, k =>
    k :: (match alookup k cameFrom with
      | some k' => reconstructKeys cameFrom fuel k'
      | none => [])

/-- `reconstructPath` from gameServer.js: the reversed key chain mapped to
cell centres. -/
def reconstructPath (cameFrom : List ((ℤ × ℤ) × (ℤ × ℤ))) (k : ℤ × ℤ)
    (nav : NavGrid) : List Pt :=
  ((reconstructKeys cameFrom (cameFrom.length + 1) k).reverse).map fun kk =>
    gridToWorld kk.1 kk.2 nav

/-- The main A* loop of `findPath`, with explicit fuel (the JS loop
terminates because g-scores strictly decrease on every re-relaxation; the
fuel chosen in `findPath` is far beyond any reachable iteration count, and
every theorem below is fuel-agnostic). -/
def astarLoop (nav : NavGrid) (bullets : List TrackedBullet)
    (goalKey : ℤ × ℤ) : ℕ → AStarState → Option (List Pt)
  | 0, _ => none
  | fuel + 1, st =>
    match st.openList with
    | [] => none
    | _ :: _ =>
      let bi := selectBestIdx st.openList
      let current := st.openList.getD bi default
      let st1 :=
        { st with
            openList := st.openList.eraseIdx bi
            openSet := st.openSet.erase current.key }
      if current.key = goalKey then
        some (reconstructPath st1.cameFrom current.key nav)
      else
        astarLoop nav bullets goalKey fuel
          (astarDirections.foldl (expandNeighbor nav bullets goalKey current) st1)

/-- The initial A* state of `findPath`: the snapped start cell with g-score 0
and its straight-line-squared heuristic against the snapped goal. -/
def astarInit (s g : ℤ × ℤ) : AStarState :=
  let m0 := ((g.1 - s.1) * (g.1 - s.1) +
    (g.2 - s.2) * (g.2 - s.2)).toNat
  let f0 : FVal := ⟨⟨0, 0⟩, m0⟩
  { openList := [⟨s, f0, s.1, s.2⟩]
    openSet := [s]
    cameFrom := []
    gScore := [(s, ⟨0, 0⟩)]
    fScore := [(s, f0)] }

/-- `findPath` from gameServer.js: snap the endpoints, run A*, and smooth the
reconstructed path. -/
def findPath (nav : NavGrid) (startPos goalPos : Pt)
    (bullets : List TrackedBullet) : Option (List Pt) :=
  match snapCell nav bullets startPos, snapCell nav bullets goalPos with
  | some validStart, some validGoal =>
    match astarLoop nav bullets validGoal
        ((nav.cols * nav.rows + 2) ^ 3) (astarInit validStart validGoal) with
    | some raw => some (smoothPath raw nav bullets)
    | none => none
  | _, _ => none

/-- `buildNavGrid` from gameServer.js: cell size `max 4 ⌊radius/2⌋`, cell
count by ceiling division, and per-cell walkability from in-bounds clearance
and wall clearance of the cell centre. -/
def buildNavGrid (walls : List Wall) : NavGrid :=
  let radius := BOT_CONFIG_playerRadius
  let cellSize : ℚ := ((max 4 (radius / 2).floor : ℤ) : ℚ)
  let cols := ((BOT_CONFIG_canvasWidth / cellSize).ceil).toNat
  let rows := ((BOT_CONFIG_canvasHeight / cellSize).ceil).toNat
  { cellSize := cellSize
    cols := cols
    rows := rows
    walkable := (List.range rows).map fun (r : ℕ) =>
      (List.range cols).map fun (c : ℕ) =>
        let wx := (c : ℚ) * cellSize + cellSize / 2
        let wy := (r : ℚ) * cellSize + cellSize / 2
        let insideBounds :=
          decide (radius ≤ wx) && decide (wx ≤ BOT_CONFIG_canvasWidth - radius) &&
          decide (radius ≤ wy) && decide (wy ≤ BOT_CONFIG_canvasHeight - radius)
        !(!insideBounds || circleCollidesAnyWall wx wy radius walls)
    radius := radius
    width := BOT_CONFIG_canvasWidth
    height := BOT_CONFIG_canvasHeight
    walls := walls }

/-- The eight grid-neighbour offsets. -/
def dirOffsets : List (ℤ × ℤ) :=
  [(1, 0), (-1, 0), (0, 1), (0, -1), (1, 1), (-1, 1), (1, -1), (-1, -1)]

/-- One 8-connected step between clear cells. -/
def AdjStepB (nav : NavGrid) (bullets : List TrackedBullet)
    (k k' : ℤ × ℤ) : Bool :=
  isCellClear nav k.1 k.2 bullets && isCellClear nav k'.1 k'.2 bullets &&
    decide ((k'.1 - k.1, k'.2 - k.2) ∈ dirOffsets)

/-- An 8-connected walkable route between two cells. -/
def RouteExists (nav : NavGrid) (bullets : List TrackedBullet)
    (a b : ℤ × ℤ) : Prop :=
  Relation.ReflTransGen (fun u v => AdjStepB nav bullets u v = true) a b

/-- A step of the raw A* path: an 8-connected step between clear cells that
additionally never cuts a corner — a diagonal step requires both adjacent
cardinal cells clear. -/
def CornerSafeStep (nav : NavGrid) (bullets : List TrackedBullet)
    (u v : ℤ × ℤ) : Prop :=
  AdjStepB nav bullets u v = true ∧
  (v.1 ≠ u.1 ∧ v.2 ≠ u.2 →
    isCellClear nav v.1 u.2 bullets = true ∧
      isCellClear nav u.1 v.2 bullets = true)

/-- The relationship between a `NavGrid` and `buildNavGrid`'s construction
(with the fixed `BOT_CONFIG` parameters, the cell size is 10 and the
walkability of each in-range cell is exactly the in-bounds-clearance plus
wall-clearance formula at the cell centre). -/
def NavConsistent (nav : NavGrid) : Prop :=
  nav.cellSize = 10 ∧ nav.radius = 20 ∧ nav.width = 900 ∧ nav.height = 600 ∧
  ∀ r : ℕ, r < nav.rows → ∀ c : ℕ, c < nav.cols →
    (nav.walkable.getD r []).getD c false =
      (decide ((20 : ℚ) ≤ 10 * c + 5) && decide ((10 * c + 5 : ℚ) ≤ 880) &&
       decide ((20 : ℚ) ≤ 10 * r + 5) && decide ((10 * r + 5 : ℚ) ≤ 580) &&
       !circleCollidesAnyWall (10 * c + 5) (10 * r + 5) 20 nav.walls)

instance navConsistentDecidable (nav : NavGrid) :
    Decidable (NavConsistent nav) := by
  unfold NavConsistent
  infer_instance



theorem getD_eq_get {α : Type} (l : List α) (d : α) (n : ℕ)
    (h : n < l.length) : l.getD n d = l.get ⟨n, h⟩ := by
  simp [List.getD_eq_getElem?_getD, List.getElem?_eq_getElem h]

theorem smoothCandidates_mem (points : List Pt) (anchor i : ℕ)
    (h : i ∈ smoothCandidates points anchor) :
    anchor + 1 ≤ i ∧ i < points.length := by
  unfold smoothCandidates at h
  rw [List.mem_map] at h
  obtain ⟨k, hk, hi⟩ := h
  rw [List.mem_range] at hk
  omega

theorem farthestClear_ge (points : List Pt) (nav : NavGrid)
    (bullets : List TrackedBullet) (anchor : ℕ) :
    anchor + 1 ≤ farthestClear points nav bullets anchor := by
  unfold farthestClear
  cases hfind : (smoothCandidates points anchor).find?
      (smoothPred points nav bullets anchor) with
  | none => simp
  | some i =>
    simp only [Option.getD_some]
    exact (smoothCandidates_mem points anchor i
      (List.mem_of_find?_eq_some hfind)).1

theorem farthestClear_lt (points : List Pt) (nav : NavGrid)
    (bullets : List TrackedBullet) (anchor : ℕ)
    (h : anchor + 1 < points.length) :
    farthestClear points nav bullets anchor < points.length := by
  unfold farthestClear
  cases hfind : (smoothCandidates points anchor).find?
      (smoothPred points nav bullets anchor) with
  | none => simpa using h
  | some i =>
    simp only [Option.getD_some]
    exact (smoothCandidates_mem points anchor i
      (List.mem_of_find?_eq_some hfind)).2

theorem farthestClear_clear_or_succ (points : List Pt) (nav : NavGrid)
    (bullets : List TrackedBullet) (anchor : ℕ) :
    farthestClear points nav bullets anchor = anchor + 1 ∨
      directPathClear (points.getD anchor ⟨0, 0⟩).x
        (points.getD anchor ⟨0, 0⟩).y
        (points.getD (farthestClear points nav bullets anchor) ⟨0, 0⟩).x
        (points.getD (farthestClear points nav bullets anchor) ⟨0, 0⟩).y
        nav bullets = true := by
  rcases hfind : (smoothCandidates points anchor).find?
      (smoothPred points nav bullets anchor) with - | i
  · left
    unfold farthestClear
    rw [hfind]
    rfl
  · right
    have hpred := List.find?_some hfind
    have hval : farthestClear points nav bullets anchor = i := by
      unfold farthestClear
      rw [hfind]
      rfl
    rw [hval]
    exact hpred

theorem smoothAux_chain (points : List Pt) (nav : NavGrid)
    (bullets : List TrackedBullet)
    (hraw : ∀ i, i + 1 < points.length →
      directPathClear (points.getD i ⟨0, 0⟩).x (points.getD i ⟨0, 0⟩).y
        (points.getD (i + 1) ⟨0, 0⟩).x (points.getD (i + 1) ⟨0, 0⟩).y
        nav bullets = true) :
    ∀ (fuel anchor : ℕ),
      List.Chain' (fun u v => directPathClear u.x u.y v.x v.y nav bullets = true)
        (points.getD anchor ⟨0, 0⟩ :: smoothAux points nav bullets fuel anchor) := by
  intro fuel
  induction fuel with
  | zero =>
    intro anchor
    simp [smoothAux]
  | succ fuel ih =>
    intro anchor
    rw [smoothAux]
    by_cases hlt : anchor < points.length - 1
    · rw [if_pos hlt]
      rw [List.chain'_cons]
      constructor
      · rcases farthestClear_clear_or_succ points nav bullets anchor with h | h
        · rw [h]
          exact hraw anchor (by omega)
        · exact h
      · exact ih (farthestClear points nav bullets anchor)
    · rw [if_neg hlt]
      simp

/-- If every consecutive pair of the raw path is joined by a clear sampled
segment, so is every consecutive pair of the smoothed path. -/
theorem smoothPath_chain (points : List Pt) (nav : NavGrid)
    (bullets : List TrackedBullet)
    (hraw : ∀ i, i + 1 < points.length →
      directPathClear (points.getD i ⟨0, 0⟩).x (points.getD i ⟨0, 0⟩).y
        (points.getD (i + 1) ⟨0, 0⟩).x (points.getD (i + 1) ⟨0, 0⟩).y
        nav bullets = true) :
    List.Chain' (fun u v => directPathClear u.x u.y v.x v.y nav bullets = true)
      (smoothPath points nav bullets) := by
  unfold smoothPath
  by_cases hlen : points.length ≤ 2
  · rw [if_pos hlen]
    rw [List.chain'_iff_get]
    intro i h
    have h2 : i + 1 < points.length := by omega
    have := hraw i h2
    rwa [getD_eq_get points _ i (by omega), getD_eq_get points _ (i + 1) h2]
      at this
  · rw [if_neg hlen]
    have h0 : points.headD ⟨0, 0⟩ = points.getD 0 ⟨0, 0⟩ := by
      cases points <;> rfl
    rw [h0]
    exact smoothAux_chain points nav bullets hraw points.length 0



theorem corner_midpoint_contradiction (p q S R2 : ℚ) (hS : S = p * p + q * q)
    (h1 : R2 ≤ S + 50 - 10 * p - 10 * q)
    (h2 : R2 ≤ S + 50 - 10 * p + 10 * q)
    (h3 : R2 ≤ S + 50 + 10 * p - 10 * q)
    (h4 : R2 ≤ S + 50 + 10 * p + 10 * q)
    (hlt : S < R2) (hR : 100 ≤ R2) : False := by
  nlinarith [mul_nonneg (sub_nonneg.mpr h1) (sub_nonneg.mpr h4),
    mul_nonneg (sub_nonneg.mpr h2) (sub_nonneg.mpr h3),
    sq_nonneg (p + q), sq_nonneg (p - q), sq_nonneg p, sq_nonneg q]

theorem clamp1_min (a b v t : ℚ) :
    (v - max a (min v b)) * (v - max a (min v b)) ≤
      (v - max a (min t b)) * (v - max a (min t b)) := by
  have hz1 : a ≤ max a (min t b) := le_max_left _ _
  have hz2 : max a (min t b) ≤ max a b :=
    max_le (le_max_left _ _) (le_trans (min_le_right _ _) (le_max_right _ _))
  rcases le_total v a with h | h
  · have hc : max a (min v b) = a :=
      max_eq_left (le_trans (min_le_left _ _) h)
    rw [hc]
    nlinarith [hz1]
  · rcases le_total v b with h2 | h2
    · have hc : max a (min v b) = v := by
        rw [min_eq_left h2, max_eq_right h]
      rw [hc]
      nlinarith [sq_nonneg (v - max a (min t b))]
    · have hc : max a (min v b) = max a b := by rw [min_eq_right h2]
      have hM : max a b ≤ v := max_le h h2
      rw [hc]
      nlinarith [hz2, hM]

theorem wallDistSq_min (wall : Wall) (qx qy mx my : ℚ) :
    wallDistSq qx qy wall ≤
      (qx - closestPtX wall mx) * (qx - closestPtX wall mx) +
        (qy - closestPtY wall my) * (qy - closestPtY wall my) := by
  have h1 := clamp1_min wall.x (wall.x + wall.width) qx mx
  have h2 := clamp1_min wall.y (wall.y + wall.height) qy my
  unfold wallDistSq closestPtX closestPtY
  linarith



theorem gridToWorld_eq (nav : NavGrid) (hcs : nav.cellSize = 10)
    (col row : ℤ) :
    gridToWorld col row nav = ⟨(col : ℚ) * 10 + 5, (row : ℚ) * 10 + 5⟩ := by
  unfold gridToWorld
  rw [hcs]
  norm_num

theorem clearCell_props (nav : NavGrid) (bullets : List TrackedBullet)
    (hnav : NavConsistent nav) (col row : ℤ)
    (h : isCellClear nav col row bullets = true) :
    (20 ≤ (col : ℚ) * 10 + 5 ∧ (col : ℚ) * 10 + 5 ≤ 880 ∧
      20 ≤ (row : ℚ) * 10 + 5 ∧ (row : ℚ) * 10 + 5 ≤ 580) ∧
    (∀ wall ∈ nav.walls,
      400 ≤ wallDistSq ((col : ℚ) * 10 + 5) ((row : ℚ) * 10 + 5) wall) ∧
    (∀ b ∈ bullets,
      1600 ≤ ((col : ℚ) * 10 + 5 - b.x) * ((col : ℚ) * 10 + 5 - b.x) +
        ((row : ℚ) * 10 + 5 - b.y) * ((row : ℚ) * 10 + 5 - b.y)) := by
  obtain ⟨hcs, hrad, hw, hh, hwalk⟩ := hnav
  unfold isCellClear at h
  simp only [Bool.and_eq_true, Bool.not_eq_true'] at h
  obtain ⟨⟨hbounds, hwalkat⟩, hbul⟩ := h
  unfold isCellWithinBounds at hbounds
  simp only [Bool.and_eq_true, decide_eq_true_eq] at hbounds
  obtain ⟨⟨⟨hc0, hr0⟩, hclt⟩, hrlt⟩ := hbounds
  have hcnat2 : ((col.toNat : ℕ) : ℚ) = (col : ℚ) := by
    exact_mod_cast Int.toNat_of_nonneg hc0
  have hrnat2 : ((row.toNat : ℕ) : ℚ) = (row : ℚ) := by
    exact_mod_cast Int.toNat_of_nonneg hr0
  have hcb : col.toNat < nav.cols := by omega
  have hrb : row.toNat < nav.rows := by omega
  unfold navWalkableAt at hwalkat
  rw [hwalk row.toNat hrb col.toNat hcb] at hwalkat
  simp only [Bool.and_eq_true, decide_eq_true_eq, Bool.not_eq_true'] at hwalkat
  obtain ⟨⟨⟨⟨hx1, hx2⟩, hy1⟩, hy2⟩, hcol⟩ := hwalkat
  rw [hcnat2] at hx1 hx2
  rw [hrnat2] at hy1 hy2
  have hx1' : (20 : ℚ) ≤ (col : ℚ) * 10 + 5 := by linarith
  have hx2' : (col : ℚ) * 10 + 5 ≤ 880 := by linarith
  have hy1' : (20 : ℚ) ≤ (row : ℚ) * 10 + 5 := by linarith
  have hy2' : (row : ℚ) * 10 + 5 ≤ 580 := by linarith
  refine ⟨⟨hx1', hx2', hy1', hy2'⟩, ?_, ?_⟩
  · intro wall hwall
    unfold circleCollidesAnyWall at hcol
    rw [List.any_eq_false] at hcol
    have hthis := hcol wall hwall
    unfold sqrtLt at hthis
    simp only [Bool.and_eq_true, decide_eq_true_eq, not_and, not_lt] at hthis
    have hd2 := hthis (by norm_num)
    have heq : (10 * ((col.toNat : ℕ) : ℚ) + 5) = (col : ℚ) * 10 + 5 := by
      rw [hcnat2]; ring
    have heq2 : (10 * ((row.toNat : ℕ) : ℚ) + 5) = (row : ℚ) * 10 + 5 := by
      rw [hrnat2]; ring
    rw [heq, heq2] at hd2
    calc (400 : ℚ) = 20 * 20 := by norm_num
      _ ≤ _ := hd2
  · intro b hb
    unfold collidesWithBulletsForPath at hbul
    rw [List.any_eq_false] at hbul
    have hthis := hbul b hb
    simp only [decide_eq_true_eq, not_lt] at hthis
    rw [gridToWorld_eq nav hcs, hrad] at hthis
    unfold BOT_CONFIG_playerRadius at hthis
    dsimp only at hthis
    calc (1600 : ℚ) = (20 + 20) * (20 + 20) := by norm_num
      _ ≤ _ := hthis

theorem clearCell_unblocked (nav : NavGrid) (bullets : List TrackedBullet)
    (hnav : NavConsistent nav) (col row : ℤ)
    (h : isCellClear nav col row bullets = true) :
    isPositionBlockedForPath ((col : ℚ) * 10 + 5) ((row : ℚ) * 10 + 5)
      nav bullets = false := by
  obtain ⟨hbounds, hwalls, hbul⟩ := clearCell_props nav bullets hnav col row h
  obtain ⟨hcs, hrad, hw, hh, -⟩ := hnav
  unfold isPositionBlockedForPath
  rw [hrad, hw, hh]
  simp only [Bool.or_eq_false_iff, decide_eq_false_iff_not, not_lt, gt_iff_lt]
  refine ⟨⟨⟨⟨⟨hbounds.1, by linarith [hbounds.2.1]⟩, hbounds.2.2.1⟩,
    by linarith [hbounds.2.2.2]⟩, ?_⟩, ?_⟩
  · unfold circleCollidesAnyWall
    rw [List.any_eq_false]
    intro wall hwall
    unfold sqrtLt
    simp only [Bool.and_eq_true, decide_eq_true_eq, not_and, not_lt]
    intro _
    have := hwalls wall hwall
    linarith
  · unfold collidesWithBulletsForPath
    rw [List.any_eq_false]
    intro b hb
    simp only [decide_eq_true_eq, not_lt]
    unfold BOT_CONFIG_playerRadius
    have := hbul b hb
    linarith

theorem directPathClear_intro (ax ay bx by' : ℚ) (nav : NavGrid)
    (bullets : List TrackedBullet) (n : ℕ)
    (h1 : ¬((bx - ax) * (bx - ax) + (by' - ay) * (by' - ay) < 1 / 1000000))
    (hsteps : max 1 (ceilSqrtDiv ((bx - ax) * (bx - ax) + (by' - ay) * (by' - ay))
      (max 4 (nav.radius * (1 / 2)))) = n)
    (hall : ∀ j, j < n →
      isPositionBlockedForPath (segSample ax ay (bx - ax) (by' - ay) (j + 1) n).x
        (segSample ax ay (bx - ax) (by' - ay) (j + 1) n).y nav bullets = false) :
    directPathClear ax ay bx by' nav bullets = true := by
  unfold directPathClear
  rw [if_neg h1]
  dsimp only
  rw [hsteps, List.all_eq_true]
  intro j hj
  rw [List.mem_range] at hj
  simp only [Bool.not_eq_true']
  exact hall j hj


theorem four_centers_contradiction (mx my zx zy d e R2 : ℚ)
    (hd : d * d = 25) (he : e * e = 25)
    (h1 : R2 ≤ (mx - d - zx) * (mx - d - zx) + (my - e - zy) * (my - e - zy))
    (h2 : R2 ≤ (mx + d - zx) * (mx + d - zx) + (my + e - zy) * (my + e - zy))
    (h3 : R2 ≤ (mx + d - zx) * (mx + d - zx) + (my - e - zy) * (my - e - zy))
    (h4 : R2 ≤ (mx - d - zx) * (mx - d - zx) + (my + e - zy) * (my + e - zy))
    (hlt : (mx - zx) * (mx - zx) + (my - zy) * (my - zy) < R2)
    (hR : 100 ≤ R2) : False := by
  apply corner_midpoint_contradiction (d * (zx - mx) / 5) (e * (zy - my) / 5)
    ((zx - mx) * (zx - mx) + (zy - my) * (zy - my)) R2
  · linear_combination (-(zx - mx) * (zx - mx) / 25) * hd +
      (-(zy - my) * (zy - my) / 25) * he
  · linarith [h2, hd, he]
  · linarith [h3, hd, he]
  · linarith [h4, hd, he]
  · linarith [h1, hd, he]
  · linarith [hlt]
  · exact hR

theorem cardinal_dpc (nav : NavGrid) (bullets : List TrackedBullet)
    (hnav : NavConsistent nav) (u v : ℤ × ℤ)
    (hv : isCellClear nav v.1 v.2 bullets = true)
    (hoff : (v.1 - u.1) * (v.1 - u.1) + (v.2 - u.2) * (v.2 - u.2) = 1) :
    directPathClear (gridToWorld u.1 u.2 nav).x (gridToWorld u.1 u.2 nav).y
      (gridToWorld v.1 v.2 nav).x (gridToWorld v.1 v.2 nav).y
      nav bullets = true := by
  have hcs := hnav.1
  have hrad := hnav.2.1
  have hoffq : ((v.1 : ℚ) - (u.1 : ℚ)) * ((v.1 : ℚ) - (u.1 : ℚ)) +
      ((v.2 : ℚ) - (u.2 : ℚ)) * ((v.2 : ℚ) - (u.2 : ℚ)) = 1 := by
    exact_mod_cast hoff
  simp only [gridToWorld_eq nav hcs]
  have hd2 : ((v.1 : ℚ) * 10 + 5 - ((u.1 : ℚ) * 10 + 5)) *
      ((v.1 : ℚ) * 10 + 5 - ((u.1 : ℚ) * 10 + 5)) +
      ((v.2 : ℚ) * 10 + 5 - ((u.2 : ℚ) * 10 + 5)) *
      ((v.2 : ℚ) * 10 + 5 - ((u.2 : ℚ) * 10 + 5)) = 100 := by
    linear_combination (100 : ℚ) * hoffq
  apply directPathClear_intro _ _ _ _ nav bullets 1
  · rw [hd2]
    norm_num
  · rw [hd2, hrad]
    decide!
  · intro j hj
    interval_cases j
    convert clearCell_unblocked nav bullets hnav v.1 v.2 hv using 2 <;>
      (unfold segSample; dsimp only; push_cast; ring)

theorem diagonal_dpc (nav : NavGrid) (bullets : List TrackedBullet)
    (hnav : NavConsistent nav) (u v : ℤ × ℤ)
    (hu : isCellClear nav u.1 u.2 bullets = true)
    (hv : isCellClear nav v.1 v.2 bullets = true)
    (hc1 : isCellClear nav v.1 u.2 bullets = true)
    (hc2 : isCellClear nav u.1 v.2 bullets = true)
    (hdc : v.1 - u.1 = 1 ∨ v.1 - u.1 = -1)
    (hdr : v.2 - u.2 = 1 ∨ v.2 - u.2 = -1) :
    directPathClear (gridToWorld u.1 u.2 nav).x (gridToWorld u.1 u.2 nav).y
      (gridToWorld v.1 v.2 nav).x (gridToWorld v.1 v.2 nav).y
      nav bullets = true := by
  have hcs := hnav.1
  have hrad := hnav.2.1
  have hw := hnav.2.2.1
  have hh := hnav.2.2.2.1
  obtain ⟨⟨hua1, hua2, hub1, hub2⟩, puw, pub⟩ :=
    clearCell_props nav bullets hnav u.1 u.2 hu
  obtain ⟨⟨hva1, hva2, hvb1, hvb2⟩, pvw, pvb⟩ :=
    clearCell_props nav bullets hnav v.1 v.2 hv
  obtain ⟨-, p1w, p1b⟩ := clearCell_props nav bullets hnav v.1 u.2 hc1
  obtain ⟨-, p2w, p2b⟩ := clearCell_props nav bullets hnav u.1 v.2 hc2
  have hdcq : ((v.1 : ℚ) - (u.1 : ℚ)) = 1 ∨ ((v.1 : ℚ) - (u.1 : ℚ)) = -1 := by
    rcases hdc with h | h
    · left; exact_mod_cast h
    · right; exact_mod_cast h
  have hdrq : ((v.2 : ℚ) - (u.2 : ℚ)) = 1 ∨ ((v.2 : ℚ) - (u.2 : ℚ)) = -1 := by
    rcases hdr with h | h
    · left; exact_mod_cast h
    · right; exact_mod_cast h
  have hdc2 : ((v.1 : ℚ) - (u.1 : ℚ)) * ((v.1 : ℚ) - (u.1 : ℚ)) = 1 := by
    rcases hdcq with h | h <;> rw [h] <;> norm_num
  have hdr2 : ((v.2 : ℚ) - (u.2 : ℚ)) * ((v.2 : ℚ) - (u.2 : ℚ)) = 1 := by
    rcases hdrq with h | h <;> rw [h] <;> norm_num
  simp only [gridToWorld_eq nav hcs]
  have hd2 : ((v.1 : ℚ) * 10 + 5 - ((u.1 : ℚ) * 10 + 5)) *
      ((v.1 : ℚ) * 10 + 5 - ((u.1 : ℚ) * 10 + 5)) +
      ((v.2 : ℚ) * 10 + 5 - ((u.2 : ℚ) * 10 + 5)) *
      ((v.2 : ℚ) * 10 + 5 - ((u.2 : ℚ) * 10 + 5)) = 200 := by
    linear_combination (100 : ℚ) * hdc2 + (100 : ℚ) * hdr2
  apply directPathClear_intro _ _ _ _ nav bullets 2
  · rw [hd2]
    norm_num
  · rw [hd2, hrad]
    decide!
  · intro j hj
    interval_cases j
    · have hs : segSample ((u.1 : ℚ) * 10 + 5) ((u.2 : ℚ) * 10 + 5)
          ((v.1 : ℚ) * 10 + 5 - ((u.1 : ℚ) * 10 + 5))
          ((v.2 : ℚ) * 10 + 5 - ((u.2 : ℚ) * 10 + 5)) (0 + 1) 2 =
          ⟨(((u.1 : ℚ) * 10 + 5) + ((v.1 : ℚ) * 10 + 5)) / 2,
            (((u.2 : ℚ) * 10 + 5) + ((v.2 : ℚ) * 10 + 5)) / 2⟩ := by
        unfold segSample
        rw [Pt.mk.injEq]
        constructor <;> (push_cast; ring)
      rw [hs]
      dsimp only
      unfold isPositionBlockedForPath
      rw [hrad, hw, hh]
      simp only [Bool.or_eq_false_iff, decide_eq_false_iff_not, not_lt,
        gt_iff_lt]
      refine ⟨⟨⟨⟨⟨by linarith, by linarith⟩, by linarith⟩, by linarith⟩,
        ?_⟩, ?_⟩
      · unfold circleCollidesAnyWall
        rw [List.any_eq_false]
        intro wall hwall
        unfold sqrtLt
        simp only [Bool.and_eq_true, decide_eq_true_eq, not_and, not_lt]
        intro _
        by_contra hcon
        push_neg at hcon
        unfold wallDistSq at hcon
        have hu400 := puw wall hwall
        have humin := wallDistSq_min wall ((u.1 : ℚ) * 10 + 5)
          ((u.2 : ℚ) * 10 + 5)
          ((((u.1 : ℚ) * 10 + 5) + ((v.1 : ℚ) * 10 + 5)) / 2)
          ((((u.2 : ℚ) * 10 + 5) + ((v.2 : ℚ) * 10 + 5)) / 2)
        have hv400 := pvw wall hwall
        have hvmin := wallDistSq_min wall ((v.1 : ℚ) * 10 + 5)
          ((v.2 : ℚ) * 10 + 5)
          ((((u.1 : ℚ) * 10 + 5) + ((v.1 : ℚ) * 10 + 5)) / 2)
          ((((u.2 : ℚ) * 10 + 5) + ((v.2 : ℚ) * 10 + 5)) / 2)
        have h1400 := p1w wall hwall
        have h1min := wallDistSq_min wall ((v.1 : ℚ) * 10 + 5)
          ((u.2 : ℚ) * 10 + 5)
          ((((u.1 : ℚ) * 10 + 5) + ((v.1 : ℚ) * 10 + 5)) / 2)
          ((((u.2 : ℚ) * 10 + 5) + ((v.2 : ℚ) * 10 + 5)) / 2)
        have h2400 := p2w wall hwall
        have h2min := wallDistSq_min wall ((u.1 : ℚ) * 10 + 5)
          ((v.2 : ℚ) * 10 + 5)
          ((((u.1 : ℚ) * 10 + 5) + ((v.1 : ℚ) * 10 + 5)) / 2)
          ((((u.2 : ℚ) * 10 + 5) + ((v.2 : ℚ) * 10 + 5)) / 2)
        exact four_centers_contradiction _ _ _ _
          ((((v.1 : ℚ) * 10 + 5) - ((u.1 : ℚ) * 10 + 5)) / 2)
          ((((v.2 : ℚ) * 10 + 5) - ((u.2 : ℚ) * 10 + 5)) / 2) _
          (by linear_combination (25 : ℚ) * hdc2)
          (by linear_combination (25 : ℚ) * hdr2)
          (by linarith [hu400, humin]) (by linarith [hv400, hvmin])
          (by linarith [h1400, h1min]) (by linarith [h2400, h2min])
          hcon (by norm_num)
      · unfold collidesWithBulletsForPath
        rw [List.any_eq_false]
        intro b hb
        simp only [decide_eq_true_eq, not_lt]
        unfold BOT_CONFIG_playerRadius
        by_contra hcon
        push_neg at hcon
        exact four_centers_contradiction _ _ _ _
          ((((v.1 : ℚ) * 10 + 5) - ((u.1 : ℚ) * 10 + 5)) / 2)
          ((((v.2 : ℚ) * 10 + 5) - ((u.2 : ℚ) * 10 + 5)) / 2) _
          (by linear_combination (25 : ℚ) * hdc2)
          (by linear_combination (25 : ℚ) * hdr2)
          (by linarith [pub b hb]) (by linarith [pvb b hb])
          (by linarith [p1b b hb]) (by linarith [p2b b hb])
          hcon (by norm_num)
    · convert clearCell_unblocked nav bullets hnav v.1 v.2 hv using 2 <;>
        (unfold segSample; dsimp only; push_cast; ring)


/-- The invariant on the A* open list: every node records its own cell in
`col`/`row`, sits on a clear cell, and is 8-connected-reachable from the
snapped start. -/
def OpenInv (nav : NavGrid) (bullets : List TrackedBullet) (s : ℤ × ℤ)
    (st : AStarState) : Prop :=
  ∀ nd ∈ st.openList, nd.col = nd.key.1 ∧ nd.row = nd.key.2 ∧
    isCellClear nav nd.key.1 nd.key.2 bullets = true ∧
    RouteExists nav bullets s nd.key

/-- The invariant on the A* parent table: every recorded edge is a
corner-safe step from parent to child. -/
def CamInv (nav : NavGrid) (bullets : List TrackedBullet)
    (st : AStarState) : Prop :=
  ∀ pr ∈ st.cameFrom, CornerSafeStep nav bullets pr.2 pr.1

theorem alookup_mem {α : Type} [DecidableEq α] {β : Type} (k : α)
    (l : List (α × β)) (v : β) (h : alookup k l = some v) : (k, v) ∈ l := by
  induction l with
  | nil => exact Option.noConfusion h
  | cons p rest ih =>
    obtain ⟨k0, v0⟩ := p
    unfold alookup at h
    split at h
    · injection h with h
      subst h
      rename_i hk
      subst hk
      exact List.mem_cons_self _ _
    · exact List.mem_cons_of_mem _ (ih h)

theorem aupsert_mem {α : Type} [DecidableEq α] {β : Type} (k : α) (v : β)
    (l : List (α × β)) (p : α × β) (h : p ∈ aupsert k v l) :
    p = (k, v) ∨ p ∈ l := by
  induction l with
  | nil =>
    unfold aupsert at h
    rcases List.mem_singleton.1 h with h
    exact Or.inl h
  | cons q rest ih =>
    obtain ⟨k0, v0⟩ := q
    unfold aupsert at h
    split at h
    · rcases List.mem_cons.1 h with h | h
      · exact Or.inl h
      · exact Or.inr (List.mem_cons_of_mem _ h)
    · rcases List.mem_cons.1 h with h | h
      · exact Or.inr (h ▸ List.mem_cons_self _ _)
      · rcases ih h with h | h
        · exact Or.inl h
        · exact Or.inr (List.mem_cons_of_mem _ h)

theorem updateNodeF_mem (key : ℤ × ℤ) (f : FVal) :
    ∀ (l : List AStarNode) (nd' : AStarNode), nd' ∈ updateNodeF key f l →
      ∃ nd ∈ l, nd'.key = nd.key ∧ nd'.col = nd.col ∧ nd'.row = nd.row := by
  intro l
  induction l with
  | nil =>
    intro nd' h
    unfold updateNodeF at h
    exact absurd h (List.not_mem_nil _)
  | cons nd rest ih =>
    intro nd' h
    unfold updateNodeF at h
    split at h
    · rcases List.mem_cons.1 h with he | ht
      · subst he
        exact ⟨nd, List.mem_cons_self _ _, rfl, rfl, rfl⟩
      · exact ⟨nd', List.mem_cons_of_mem _ ht, rfl, rfl, rfl⟩
    · rcases List.mem_cons.1 h with he | ht
      · subst he
        exact ⟨_, List.mem_cons_self _ _, rfl, rfl, rfl⟩
      · obtain ⟨nd0, h0, hh⟩ := ih nd' ht
        exact ⟨nd0, List.mem_cons_of_mem _ h0, hh⟩

theorem bestIdxAux_lt : ∀ (l : List AStarNode) (f : FVal) (i best : ℕ),
    best < i → bestIdxAux l f i best < i + l.length := by
  intro l
  induction l with
  | nil =>
    intro f i best h
    unfold bestIdxAux
    simpa using h
  | cons nd rest ih =>
    intro f i best h
    unfold bestIdxAux
    split
    · have := ih nd.f (i + 1) i (by omega)
      simp only [List.length_cons]
      omega
    · have := ih f (i + 1) best (by omega)
      simp only [List.length_cons]
      omega

theorem selectBestIdx_lt (l : List AStarNode) (h : l ≠ []) :
    selectBestIdx l < l.length := by
  cases l with
  | nil => exact absurd rfl h
  | cons nd rest =>
    unfold selectBestIdx
    have := bestIdxAux_lt rest nd.f 1 0 (by omega)
    simp only [List.length_cons]
    omega

theorem reconstructKeys_chain (nav : NavGrid) (bullets : List TrackedBullet)
    (cameFrom : List ((ℤ × ℤ) × (ℤ × ℤ)))
    (hcf : ∀ pr ∈ cameFrom, CornerSafeStep nav bullets pr.2 pr.1) :
    ∀ (fuel : ℕ) (k : ℤ × ℤ),
      List.Chain' (fun a b => CornerSafeStep nav bullets b a)
        (reconstructKeys cameFrom fuel k) := by
  intro fuel
  induction fuel with
  | zero =>
    intro k
    unfold reconstructKeys
    exact List.chain'_nil
  | succ f ih =>
    intro k
    unfold reconstructKeys
    cases halk : alookup k cameFrom with
    | none =>
      simp only [halk]
      exact List.chain'_singleton _
    | some k1 =>
      simp only [halk]
      rw [List.chain'_cons']
      refine ⟨?_, ih k1⟩
      intro b hb
      cases f with
      | zero => simp [reconstructKeys] at hb
      | succ f1 =>
        unfold reconstructKeys at hb
        simp only [List.head?_cons, Option.mem_def, Option.some.injEq] at hb
        subst hb
        exact hcf (k, k1) (alookup_mem k cameFrom k1 halk)



theorem expandNeighbor_inv (nav : NavGrid) (bullets : List TrackedBullet)
    (goal s : ℤ × ℤ) (current : AStarNode) (st : AStarState)
    (dir : (ℤ × ℤ) × GVal) (hdir : dir ∈ astarDirections)
    (hcol : current.col = current.key.1) (hrow : current.row = current.key.2)
    (hclear : isCellClear nav current.key.1 current.key.2 bullets = true)
    (hroute : RouteExists nav bullets s current.key)
    (hopen : OpenInv nav bullets s st) (hcam : CamInv nav bullets st) :
    OpenInv nav bullets s (expandNeighbor nav bullets goal current st dir) ∧
      CamInv nav bullets (expandNeighbor nav bullets goal current st dir) := by
  have hdir1 : dir.1 ∈ dirOffsets := by
    simp only [astarDirections, List.mem_cons, List.not_mem_nil, or_false]
      at hdir
    rcases hdir with h | h | h | h | h | h | h | h <;> subst h <;> decide
  unfold expandNeighbor
  dsimp only
  split
  · exact ⟨hopen, hcam⟩
  next hb =>
  split
  · exact ⟨hopen, hcam⟩
  next hc =>
  split
  · exact ⟨hopen, hcam⟩
  next hcc =>
  have hclearN : isCellClear nav (current.col + dir.1.1)
      (current.row + dir.1.2) bullets = true := by
    cases hval : isCellClear nav (current.col + dir.1.1)
        (current.row + dir.1.2) bullets with
    | true => rfl
    | false => exact absurd (by rw [hval]; rfl) hc
  have hadjB : AdjStepB nav bullets current.key
      (current.col + dir.1.1, current.row + dir.1.2) = true := by
    unfold AdjStepB
    rw [Bool.and_eq_true, Bool.and_eq_true]
    refine ⟨⟨hclear, hclearN⟩, ?_⟩
    rw [decide_eq_true_eq]
    dsimp only
    have e1 : current.col + dir.1.1 - current.key.1 = dir.1.1 := by
      rw [← hcol]; ring
    have e2 : current.row + dir.1.2 - current.key.2 = dir.1.2 := by
      rw [← hrow]; ring
    rw [e1, e2, Prod.mk.eta]
    exact hdir1
  have hstep : CornerSafeStep nav bullets current.key
      (current.col + dir.1.1, current.row + dir.1.2) := by
    refine ⟨hadjB, ?_⟩
    rintro ⟨hne1, hne2⟩
    push_neg at hcc
    dsimp only at hne1 hne2
    have hd1 : dir.1.1 ≠ 0 := by omega
    have hd2 : dir.1.2 ≠ 0 := by omega
    obtain ⟨hP, hQ⟩ := hcc ⟨hd1, hd2⟩
    rw [hrow] at hP
    rw [hcol] at hQ
    exact ⟨hP, hQ⟩
  have hrouteN : RouteExists nav bullets s
      (current.col + dir.1.1, current.row + dir.1.2) :=
    Relation.ReflTransGen.tail hroute hadjB
  split
  · exact ⟨hopen, hcam⟩
  next gc hgc =>
  split
  · exact ⟨hopen, hcam⟩
  next hkeep =>
  have hcamNew : CamInv nav bullets
      { st with
          cameFrom := aupsert (current.col + dir.1.1, current.row + dir.1.2)
            current.key st.cameFrom
          gScore := aupsert (current.col + dir.1.1, current.row + dir.1.2)
            (GVal.add gc dir.2) st.gScore
          fScore := aupsert (current.col + dir.1.1, current.row + dir.1.2)
            ⟨GVal.add gc dir.2,
              ((goal.1 - (current.col + dir.1.1)) *
                (goal.1 - (current.col + dir.1.1)) +
                (goal.2 - (current.row + dir.1.2)) *
                (goal.2 - (current.row + dir.1.2))).toNat⟩ st.fScore } := by
    intro pr hpr
    rcases aupsert_mem _ _ _ _ hpr with heq | hold
    · subst heq
      exact hstep
    · exact hcam pr hold
  split
  next hmem =>
    constructor
    · intro nd' hnd'
      obtain ⟨nd0, hnd0, hk, hcx, hrx⟩ := updateNodeF_mem _ _ _ _ hnd'
      rw [hk, hcx, hrx]
      exact hopen nd0 hnd0
    · exact hcamNew
  next hmem =>
    constructor
    · intro nd' hnd'
      rcases List.mem_append.1 hnd' with hin | hin
      · exact hopen nd' hin
      · rcases List.mem_singleton.1 hin with he
        subst he
        exact ⟨rfl, rfl, hclearN, hrouteN⟩
    · exact hcamNew

theorem foldl_expand_inv (nav : NavGrid) (bullets : List TrackedBullet)
    (goal s : ℤ × ℤ) (current : AStarNode)
    (hcol : current.col = current.key.1) (hrow : current.row = current.key.2)
    (hclear : isCellClear nav current.key.1 current.key.2 bullets = true)
    (hroute : RouteExists nav bullets s current.key) :
    ∀ (dirs : List ((ℤ × ℤ) × GVal)), (∀ d ∈ dirs, d ∈ astarDirections) →
      ∀ st : AStarState, OpenInv nav bullets s st → CamInv nav bullets st →
      OpenInv nav bullets s
          (dirs.foldl (expandNeighbor nav bullets goal current) st) ∧
        CamInv nav bullets
          (dirs.foldl (expandNeighbor nav bullets goal current) st) := by
  intro dirs
  induction dirs with
  | nil =>
    intro _ st h1 h2
    exact ⟨h1, h2⟩
  | cons d rest ih =>
    intro hmem st h1 h2
    rw [List.foldl_cons]
    have hd := expandNeighbor_inv nav bullets goal s current st d
      (hmem d (List.mem_cons_self _ _)) hcol hrow hclear hroute h1 h2
    exact ih (fun x hx => hmem x (List.mem_cons_of_mem _ hx)) _ hd.1 hd.2


theorem astarLoop_sound (nav : NavGrid) (bullets : List TrackedBullet)
    (s goalKey : ℤ × ℤ) :
    ∀ (fuel : ℕ) (st : AStarState) (raw : List Pt),
      OpenInv nav bullets s st → CamInv nav bullets st →
      astarLoop nav bullets goalKey fuel st = some raw →
      RouteExists nav bullets s goalKey ∧
        ∃ kpath : List (ℤ × ℤ),
          raw = kpath.map (fun k => gridToWorld k.1 k.2 nav) ∧
          List.Chain' (CornerSafeStep nav bullets) kpath := by
  intro fuel
  induction fuel with
  | zero =>
    intro st raw _ _ h
    exact Option.noConfusion h
  | succ f ih =>
    intro st raw hopen hcam h
    unfold astarLoop at h
    cases hol : st.openList with
    | nil =>
      rw [hol] at h
      exact Option.noConfusion h
    | cons nd rest =>
      rw [hol] at h
      dsimp only at h
      have hbi : selectBestIdx (nd :: rest) < (nd :: rest).length :=
        selectBestIdx_lt _ (by simp)
      have hcmem : (nd :: rest).getD (selectBestIdx (nd :: rest)) default ∈
          nd :: rest := by
        rw [getD_eq_get _ _ _ hbi]
        exact List.get_mem _ _ _
      obtain ⟨hccol, hcrow, hcclear, hcroute⟩ :=
        hopen ((nd :: rest).getD (selectBestIdx (nd :: rest)) default)
          (by rw [hol]; exact hcmem)
      split at h
      next hk =>
        injection h with hraw
        refine ⟨hk ▸ hcroute, ?_⟩
        refine ⟨(reconstructKeys st.cameFrom (st.cameFrom.length + 1)
          ((nd :: rest).getD (selectBestIdx (nd :: rest)) default).key).reverse,
          ?_, ?_⟩
        · rw [← hraw]
          rfl
        · rw [List.chain'_reverse]
          exact reconstructKeys_chain nav bullets st.cameFrom
            (fun pr hpr => hcam pr hpr) _ _
      next hk =>
        have hfold := foldl_expand_inv nav bullets goalKey s _ hccol hcrow
          hcclear hcroute astarDirections (fun d hd => hd)
          { st with
              openList := (nd :: rest).eraseIdx (selectBestIdx (nd :: rest))
              openSet := st.openSet.erase
                ((nd :: rest).getD (selectBestIdx (nd :: rest)) default).key }
          (fun nd' hnd' => hopen nd'
            (by rw [hol]; exact List.eraseIdx_subset _ _ hnd'))
          (fun pr hpr => hcam pr hpr)
        exact ih _ raw hfold.1 hfold.2 h

theorem findNearestClearCell_some_clear (nav : NavGrid)
    (bullets : List TrackedBullet) (startCol startRow : ℤ) (c : ℤ × ℤ)
    (h : findNearestClearCell nav bullets startCol startRow = some c) :
    isCellClear nav c.1 c.2 bullets = true := by
  unfold findNearestClearCell at h
  split at h
  · injection h with h
    subst h
    assumption
  · obtain ⟨d, -, hd⟩ := List.exists_of_findSome?_eq_some h
    split at hd
    · injection hd with hd
      subst hd
      assumption
    · exact Option.noConfusion hd

theorem snapCell_some_clear (nav : NavGrid) (bullets : List TrackedBullet)
    (pos : Pt) (c : ℤ × ℤ) (h : snapCell nav bullets pos = some c) :
    isCellClear nav c.1 c.2 bullets = true := by
  unfold snapCell at h
  dsimp only at h
  split at h
  · injection h with h
    subst h
    assumption
  · exact findNearestClearCell_some_clear nav bullets _ _ c h

theorem astarInit_inv (nav : NavGrid) (bullets : List TrackedBullet)
    (s g : ℤ × ℤ) (hs : isCellClear nav s.1 s.2 bullets = true) :
    OpenInv nav bullets s (astarInit s g) ∧
      CamInv nav bullets (astarInit s g) := by
  constructor
  · intro nd hnd
    unfold astarInit at hnd
    rcases List.mem_singleton.1 hnd with he
    subst he
    exact ⟨rfl, rfl, hs, Relation.ReflTransGen.refl⟩
  · intro pr hpr
    unfold astarInit at hpr
    exact absurd hpr (List.not_mem_nil _)

theorem cornerStep_dpc (nav : NavGrid) (bullets : List TrackedBullet)
    (hnav : NavConsistent nav) (u v : ℤ × ℤ)
    (h : CornerSafeStep nav bullets u v) :
    directPathClear (gridToWorld u.1 u.2 nav).x (gridToWorld u.1 u.2 nav).y
      (gridToWorld v.1 v.2 nav).x (gridToWorld v.1 v.2 nav).y
      nav bullets = true := by
  obtain ⟨hadj, hcorner⟩ := h
  unfold AdjStepB at hadj
  rw [Bool.and_eq_true, Bool.and_eq_true, decide_eq_true_eq] at hadj
  obtain ⟨⟨hu, hv⟩, hoffmem⟩ := hadj
  simp only [dirOffsets, List.mem_cons, List.not_mem_nil, or_false]
    at hoffmem
  rcases hoffmem with h0 | h0 | h0 | h0 | h0 | h0 | h0 | h0 <;>
    rw [Prod.mk.injEq] at h0
  · exact cardinal_dpc nav bullets hnav u v hv
      (by rw [h0.1, h0.2]; norm_num)
  · exact cardinal_dpc nav bullets hnav u v hv
      (by rw [h0.1, h0.2]; norm_num)
  · exact cardinal_dpc nav bullets hnav u v hv
      (by rw [h0.1, h0.2]; norm_num)
  · exact cardinal_dpc nav bullets hnav u v hv
      (by rw [h0.1, h0.2]; norm_num)
  · obtain ⟨hc1, hc2⟩ := hcorner ⟨by omega, by omega⟩
    exact diagonal_dpc nav bullets hnav u v hu hv hc1 hc2
      (Or.inl h0.1) (Or.inl h0.2)
  · obtain ⟨hc1, hc2⟩ := hcorner ⟨by omega, by omega⟩
    exact diagonal_dpc nav bullets hnav u v hu hv hc1 hc2
      (Or.inr h0.1) (Or.inl h0.2)
  · obtain ⟨hc1, hc2⟩ := hcorner ⟨by omega, by omega⟩
    exact diagonal_dpc nav bullets hnav u v hu hv hc1 hc2
      (Or.inl h0.1) (Or.inr h0.2)
  · obtain ⟨hc1, hc2⟩ := hcorner ⟨by omega, by omega⟩
    exact diagonal_dpc nav bullets hnav u v hu hv hc1 hc2
      (Or.inr h0.1) (Or.inr h0.2)

theorem chain_map_dpc (nav : NavGrid) (bullets : List TrackedBullet)
    (hnav : NavConsistent nav) (kpath : List (ℤ × ℤ))
    (hch : List.Chain' (CornerSafeStep nav bullets) kpath) :
    ∀ i, i + 1 < (kpath.map fun k => gridToWorld k.1 k.2 nav).length →
      directPathClear
        ((kpath.map (fun k => gridToWorld k.1 k.2 nav)).getD i ⟨0, 0⟩).x
        ((kpath.map (fun k => gridToWorld k.1 k.2 nav)).getD i ⟨0, 0⟩).y
        ((kpath.map (fun k => gridToWorld k.1 k.2 nav)).getD (i + 1) ⟨0, 0⟩).x
        ((kpath.map (fun k => gridToWorld k.1 k.2 nav)).getD (i + 1) ⟨0, 0⟩).y
        nav bullets = true := by
  intro i hi
  rw [List.length_map] at hi
  have h1 : i < kpath.length := by omega
  have hg1 : i < (kpath.map fun k => gridToWorld k.1 k.2 nav).length := by
    rw [List.length_map]; omega
  have hg2 : i + 1 < (kpath.map fun k => gridToWorld k.1 k.2 nav).length := by
    rw [List.length_map]; omega
  rw [getD_eq_get _ _ _ hg1, getD_eq_get _ _ _ hg2]
  have hR := List.chain'_iff_get.1 hch i (by omega)
  have hm1 : (kpath.map fun k => gridToWorld k.1 k.2 nav).get ⟨i, hg1⟩ =
      gridToWorld (kpath.get ⟨i, h1⟩).1 (kpath.get ⟨i, h1⟩).2 nav := by
    rw [List.get_eq_getElem, List.get_eq_getElem, List.getElem_map]
  have hm2 : (kpath.map fun k => gridToWorld k.1 k.2 nav).get ⟨i + 1, hg2⟩ =
      gridToWorld (kpath.get ⟨i + 1, hi⟩).1 (kpath.get ⟨i + 1, hi⟩).2 nav := by
    rw [List.get_eq_getElem, List.get_eq_getElem, List.getElem_map]
  rw [hm1, hm2]
  exact cornerStep_dpc nav bullets hnav _ _ hR


/-- C5: `findPath` returns `none` when the start or the goal cannot be
snapped (by the bounded expanding-ring search) to a clear cell; whenever the
A* stage returns a raw path, the snapped start and goal are joined by an
8-connected walkable route and the raw path is the cell-centre image of a
corner-safe cell chain (each diagonal step is taken only when both adjacent
cardinal cells are clear); and every path returned by `findPath` (after the
greedy string-pulling smoothing) has each consecutive waypoint pair joined
by a straight segment that is clear of walls, playfield-boundary clearance
and blocking bullets at the sampled step resolution. -/
theorem findPath_spec (nav : NavGrid) (bullets : List TrackedBullet)
    (hnav : NavConsistent nav) (startPos goalPos : Pt) :
    ((snapCell nav bullets startPos = none ∨
        snapCell nav bullets goalPos = none) →
      findPath nav startPos goalPos bullets = none) ∧
    (∀ s g raw, snapCell nav bullets startPos = some s →
      snapCell nav bullets goalPos = some g →
      astarLoop nav bullets g ((nav.cols * nav.rows + 2) ^ 3)
          (astarInit s g) = some raw →
      RouteExists nav bullets s g ∧
      ∃ kpath : List (ℤ × ℤ),
        raw = kpath.map (fun k => gridToWorld k.1 k.2 nav) ∧
        List.Chain' (CornerSafeStep nav bullets) kpath) ∧
    (∀ path, findPath nav startPos goalPos bullets = some path →
      List.Chain'
        (fun p q : Pt => directPathClear p.x p.y q.x q.y nav bullets = true)
        path) := by
  refine ⟨?_, ?_, ?_⟩
  · intro h
    unfold findPath
    rcases h with h | h
    · rw [h]
    · rw [h]
      cases snapCell nav bullets startPos <;> rfl
  · intro s g raw hs hg hloop
    exact astarLoop_sound nav bullets s g _ _ raw
      (astarInit_inv nav bullets s g
        (snapCell_some_clear nav bullets startPos s hs)).1
      (astarInit_inv nav bullets s g
        (snapCell_some_clear nav bullets startPos s hs)).2
      hloop
  · intro path h
    unfold findPath at h
    cases hx : snapCell nav bullets startPos with
    | none =>
      rw [hx] at h
      exact Option.noConfusion h
    | some s =>
      rw [hx] at h
      cases hy : snapCell nav bullets goalPos with
      | none =>
        rw [hy] at h
        exact Option.noConfusion h
      | some g =>
        rw [hy] at h
        dsimp only at h
        cases hloop : astarLoop nav bullets g
            ((nav.cols * nav.rows + 2) ^ 3) (astarInit s g) with
        | none =>
          rw [hloop] at h
          exact Option.noConfusion h
        | some raw =>
          rw [hloop] at h
          injection h with h
          subst h
          obtain ⟨-, kpath, hmap, hch⟩ := astarLoop_sound nav bullets s g
            _ _ raw
            (astarInit_inv nav bullets s g
              (snapCell_some_clear nav bullets startPos s hx)).1
            (astarInit_inv nav bullets s g
              (snapCell_some_clear nav bullets startPos s hx)).2
            hloop
          subst hmap
          exact smoothPath_chain _ nav bullets
            (chain_map_dpc nav bullets hnav kpath hch)


/-- A concrete 5-by-5 navigation grid (cell size 10, no walls) whose
walkable cells are exactly those with both centre coordinates at least 25,
matching the playfield-clearance rule of `buildNavGrid` on that grid size. -/
def wNavC5 : NavGrid :=
  { cellSize := 10, cols := 5, rows := 5,
    walkable := [[false, false, false, false, false],
                 [false, false, false, false, false],
                 [false, false, true, true, true],
                 [false, false, true, true, true],
                 [false, false, true, true, true]],
    radius := 20, width := 900, height := 600, walls := [] }

theorem findPath_spec_witness :
    NavConsistent wNavC5 ∧
    findPath wNavC5 ⟨25, 25⟩ ⟨45, 45⟩ [] = some [⟨25, 25⟩, ⟨45, 45⟩] ∧
    List.Chain'
      (fun p q : Pt => directPathClear p.x p.y q.x q.y wNavC5 [] = true)
      [⟨25, 25⟩, ⟨45, 45⟩] := by
  have hc : NavConsistent wNavC5 := by decide!
  have hf : findPath wNavC5 ⟨25, 25⟩ ⟨45, 45⟩ [] =
      some [⟨25, 25⟩, ⟨45, 45⟩] := by decide!
  exact ⟨hc, hf, (findPath_spec wNavC5 [] hc ⟨25, 25⟩ ⟨45, 45⟩).2.2 _ hf⟩


theorem getD_map_range {β : Type} (f : ℕ → β) (n r : ℕ) (hr : r < n)
    (d : β) : ((List.range n).map f).getD r d = f r := by
  rw [List.getD_eq_getElem?_getD, List.getElem?_map, List.getElem?_range hr]
  rfl

theorem buildNavGrid_consistent (walls : List Wall) :
    NavConsistent (buildNavGrid walls) := by
  have hcell : ((max 4 ((BOT_CONFIG_playerRadius : ℚ) / 2).floor : ℤ) : ℚ) =
      10 := by
    decide!
  unfold NavConsistent buildNavGrid
  dsimp only
  refine ⟨hcell, rfl, rfl, rfl, ?_⟩
  intro r hr c hc
  rw [getD_map_range _ _ _ hr, getD_map_range _ _ _ hc]
  rw [hcell]
  unfold BOT_CONFIG_playerRadius BOT_CONFIG_canvasWidth BOT_CONFIG_canvasHeight
  rw [show ((c : ℚ) * 10 + 10 / 2) = 10 * (c : ℚ) + 5 from by ring,
    show ((r : ℚ) * 10 + 10 / 2) = 10 * (r : ℚ) + 5 from by ring,
    show (900 : ℚ) - 20 = 880 from by norm_num,
    show (600 : ℚ) - 20 = 580 from by norm_num]
  simp only [Bool.not_or, Bool.not_not]

end MSG
